import Mathlib

/-!
Verification development for the Vanta autonomous agent pipeline.

Shallow embedding of the pipeline components in `src/`:
the amount normalizer and swap estimator (`src/lib/ref-finance/swap.ts`),
liquidity discovery (`findPool` in `swap.ts`, `hasLiquidityPool` in the
token analyzer), the token catalog (`fetchAvailableTokens`,
`loadFallbackTokens`), the token predictor (`predictBestToken`), the task
planner (`planAgentTasks`), the swap executor (`executeTokenSwap`), the
task history ledger (`task-history-service.ts`) and the orchestrator
(`executeAgent`).

External effects (LLM calls, blockchain RPC, HTTP fetches, the database)
are modelled as explicit environment parameters: each call site receives
the outcome of the corresponding external call (`Except String α` when the
source awaits a promise that can reject).  All definitions are executable.
-/

namespace Vanta

/-! ## Decimal digits and rendering (models JS number-to-string output) -/

/-- Character for a single decimal digit (digits ≥ 9 clamp to '9'; callers
only pass values below 10). -/
def digitChar : Nat → Char
  | 0 => '0' | 1 => '1' | 2 => '2' | 3 => '3' | 4 => '4'
  | 5 => '5' | 6 => '6' | 7 => '7' | 8 => '8' | _ => '9'

/-- Fuelled digit extraction (structural recursion so that terms reduce
definitionally; `natDigs` supplies adequate fuel). -/
def natDigsF : Nat → Nat → List Char
  | 0, _ => []
  | fuel + 1, n =>
    if n < 10 then [digitChar n] else natDigsF fuel (n / 10) ++ [digitChar (n % 10)]

/-- Decimal digit characters of a natural number, most significant first. -/
def natDigs (n : Nat) : List Char := natDigsF (n + 1) n

/-- Decimal rendering of a magnitude with an optional minus sign: the
digit strings produced by `toLocaleString('fullwide', ...)` for finite
values rounded to an integer.  A negative zero renders as "-0", as the
formatter does. -/
def signedDecString (neg : Bool) (m : Nat) : String :=
  if neg then ⟨'-' :: natDigs m⟩ else ⟨natDigs m⟩

/-- Plain decimal rendering of a natural number. -/
def natToDecString (n : Nat) : String := ⟨natDigs n⟩

/-! ## Parsing numeric strings (models `parseFloat`)

`parseFloat` parses the longest numeric prefix of the string: optional
sign, digits with an optional fraction part, then an optional exponent
part (`e`/`E`, optional sign, digits; ignored when it has no digits).
It yields NaN when no digits were consumed, modelled here as `none`
(the `Infinity` literal and leading whitespace, which never occur in the
amount strings this code base feeds to it, are not modelled).  The parse
is split into the sign and the exact nonnegative decimal magnitude; the
source returns the IEEE-754 binary64 double nearest to the signed value,
and that rounding of the magnitude is modelled separately by `flRound`
below. -/

/-- Numeric value of a single digit character. -/
def digVal (c : Char) : Nat := c.toNat - 48

/-- Value of a list of digit characters, most significant first. -/
def digitsToNat (ds : List Char) : Nat := ds.foldl (fun a c => 10 * a + digVal c) 0

/-- Consumption of an optional leading sign: returns whether a minus was
consumed and the remaining characters. -/
def splitSign (cs : List Char) : Bool × List Char :=
  if cs.headD ' ' = '-' then (true, cs.tail)
  else if cs.headD ' ' = '+' then (false, cs.tail)
  else (false, cs)

/-- Sign and exact decimal magnitude denoted by the numeric prefix of a
character list; `none` when `parseFloat` would yield NaN. -/
def parseSciParts (cs : List Char) : Option (Bool × ℚ) :=
  let sn := splitSign cs
  let ip := sn.2.takeWhile (·.isDigit)
  let cs2 := sn.2.dropWhile (·.isDigit)
  let fp := if cs2.headD ' ' = '.' then cs2.tail.takeWhile (·.isDigit) else []
  let cs3 := if cs2.headD ' ' = '.' then cs2.tail.dropWhile (·.isDigit) else cs2
  if ip.isEmpty && fp.isEmpty then none
  else
    let mant : ℚ := (digitsToNat ip : ℚ) + (digitsToNat fp : ℚ) / ((10 : ℚ) ^ fp.length)
    let expPart : Int :=
      if cs3.headD ' ' = 'e' ∨ cs3.headD ' ' = 'E' then
        let es := splitSign cs3.tail
        let ed := es.2.takeWhile (·.isDigit)
        if ed.isEmpty then 0
        else if es.1 then -(digitsToNat ed : Int) else (digitsToNat ed : Int)
      else 0
    some (sn.1, mant * (10 : ℚ) ^ expPart)

/-- Exact decimal value denoted by a character list: the signed magnitude.
The source's `parseFloat` returns the nearest binary64 double to this
value. -/
def parseSciChars (cs : List Char) : Option ℚ :=
  (parseSciParts cs).map (fun p => if p.1 then -p.2 else p.2)

/-- Exact decimal value denoted by a string. -/
def parseSciQ (s : String) : Option ℚ := parseSciChars s.toList

/-! ## Binary64 rounding (models the IEEE doubles of the source) -/

/-- Floor of the base-2 logarithm of a positive rational: the unique `e`
with `2 ^ e ≤ q < 2 ^ (e + 1)`. -/
def ilog2 (q : ℚ) : ℤ :=
  let e0 : ℤ := (Nat.log2 q.num.natAbs : ℤ) - (Nat.log2 q.den : ℤ)
  if (2 : ℚ) ^ e0 ≤ q then e0 else e0 - 1

/-- Round-to-nearest, ties-to-even, of a rational to an integer. -/
def rneInt (q : ℚ) : ℤ :=
  if q - (⌊q⌋ : ℚ) < 1 / 2 then ⌊q⌋
  else if (1 : ℚ) / 2 < q - (⌊q⌋ : ℚ) then ⌊q⌋ + 1
  else if ⌊q⌋ % 2 = 0 then ⌊q⌋ else ⌊q⌋ + 1

/-- Rounding of a nonnegative rational to the nearest IEEE-754 binary64
value (53-bit significand, round-to-nearest ties-to-even), with unbounded
exponent range: the overflow threshold `2 ^ 1024` is checked by the
caller, and in the subnormal range (below `2 ^ (-1022)`), where the true
rounding step is coarser, every value involved lies far below `1 / 2`, so
the integer rendering of the result is unaffected by the difference. -/
def flRound (q : ℚ) : ℚ :=
  if q ≤ 0 then 0
  else (rneInt (q / (2 : ℚ) ^ (ilog2 q - 52)) : ℚ) * (2 : ℚ) ^ (ilog2 q - 52)

/-- Rounding of `toLocaleString` with `maximumFractionDigits: 0` on a
nonnegative value: nearest integer, ties away from zero (Intl's default
`halfExpand` rounding mode). -/
def jsRoundMag (q : ℚ) : ℕ := (⌊q + 1 / 2⌋).toNat

/-! ## `convertScientificToString` (src/lib/ref-finance/swap.ts lines 17-32) -/

/-- Test for `/e/i` on a string: does it contain an exponent marker. -/
def hasExpMarker (s : String) : Bool := s.toList.any (fun c => c = 'e' || c = 'E')

/-- Model of `convertScientificToString` (swap.ts lines 17-32): a string
without an exponent marker is returned as-is; otherwise the string is
parsed with `parseFloat` (NaN throws "Invalid number"), i.e. to its sign
and the binary64 rounding `flRound` of its exact decimal magnitude, and
the double is re-rendered with `toLocaleString('fullwide', useGrouping:
false, maximumFractionDigits: 0)`: `"∞"` / `"-∞"` when the rounding
overflows the binary64 range, otherwise the plain digits of the double
rounded to an integer, with the sign. -/
def convertScientificToString (value : String) : Except String String :=
  if hasExpMarker value then
    match parseSciParts value.toList with
    | none => .error ("Invalid number: " ++ value)
    | some sm =>
      if (2 : ℚ) ^ (1024 : ℕ) ≤ flRound sm.2 then
        .ok (if sm.1 then "-∞" else "∞")
      else .ok (signedDecString sm.1 (jsRoundMag (flRound sm.2)))
  else .ok value

/-! ## Liquidity discovery

`findPool` (src/lib/ref-finance/swap.ts lines 56-121) and
`hasLiquidityPool` (token analyzer lines 32-86) paginate the DEX pool
registry in batches of 100 from index 0, capped at `min(numPools, cap)`
with `cap = 500` resp. `200`.  The RPC is modelled by a `PoolEnv`: the
outcome of the `get_number_of_pools` call and of each `get_pools` page
call (`.error` = the RPC call threw). -/

/-- Registry entry, with the field both loops inspect
(`pool.token_account_ids`). -/
structure Pool where
  token_account_ids : List String
deriving DecidableEq, Repr

/-- Outcomes of the registry RPC calls made during a scan. -/
structure PoolEnv where
  numPools : Except String Nat
  getPools : Nat → Except String (List Pool)

/-- Batch loop shared by `findPool` and `hasLiquidityPool`, with explicit
fuel (structural recursion so that terms reduce definitionally; the fuel
is irrelevant as long as `cap < i + 100 * fuel`): starting from index `i`
(a multiple of 100), fetch pages of 100 pools while `i < min numPools
cap`, and return the global index of the first pool satisfying `m`.  An
RPC error propagates (the source throws to the enclosing catch). -/
def scanPoolsF (env : PoolEnv) (m : Pool → Bool) (cap numPools : Nat) :
    Nat → Nat → Except String (Option Nat)
  | 0, _ => .ok none
  | fuel + 1, i =>
    if i < min numPools cap then
      match env.getPools i with
      | .error e => .error e
      | .ok batch =>
        match batch.findIdx? m with
        | some j => .ok (some (i + j))
        | none => scanPoolsF env m cap numPools fuel (i + 100)
    else .ok none

/-- Batch loop from index `i` with adequate fuel. -/
def scanPools (env : PoolEnv) (m : Pool → Bool) (cap numPools i : Nat) :
    Except String (Option Nat) :=
  scanPoolsF env m cap numPools (cap + 1) i

/-- Pool match used by `findPool`: the pool's token set contains both
requested tokens (role-agnostic). -/
def poolMatches (tokenIn tokenOut : String) (p : Pool) : Bool :=
  p.token_account_ids.contains tokenIn && p.token_account_ids.contains tokenOut

/-- Model of `findPool` (swap.ts lines 56-121): scan up to the first 500
pools in batches of 100 and return the first matching pool id; any RPC
error is caught and yields `null` (`none`). -/
def findPool (env : PoolEnv) (tokenIn tokenOut : String) : Option Nat :=
  match env.numPools with
  | .error _ => none
  | .ok n =>
    match scanPools env (poolMatches tokenIn tokenOut) 500 n 0 with
    | .error _ => none
    | .ok r => r

/-- The wrapped-native token id (`wrap.testnet`), the base asset of every
liquidity check. -/
def WRAP_NEAR_TOKEN : String := "wrap.testnet"

/-- Pool match used by `hasLiquidityPool`: the pool holds wNEAR and the
target token. -/
def liqMatches (tokenId : String) (p : Pool) : Bool :=
  p.token_account_ids.contains WRAP_NEAR_TOKEN && p.token_account_ids.contains tokenId

/-- Model of `hasLiquidityPool` (token analyzer lines 32-86): scan up to
the first 200 pools in batches of 100; `true` iff a pool holding wNEAR and
the target token is found; any RPC error yields `false`. -/
def hasLiquidityPool (env : PoolEnv) (tokenId : String) : Bool :=
  match env.numPools with
  | .error _ => false
  | .ok n =>
    match scanPools env (liqMatches tokenId) 200 n 0 with
    | .error _ => false
    | .ok r => r.isSome

/-- The honest chain model for a given registry: `get_number_of_pools`
returns the registry length and `get_pools(i, 100)` returns the
corresponding slice. -/
def honestPoolEnv (reg : List Pool) : PoolEnv where
  numPools := .ok reg.length
  getPools i := .ok ((reg.drop i).take 100)

/-- Chain model that answers honestly below page `k` and fails with `e`
at page `k` (models an RPC error in the middle of a scan). -/
def failAtPoolEnv (reg : List Pool) (k : Nat) (e : String) : PoolEnv where
  numPools := .ok reg.length
  getPools i := if i = k then .error e else .ok ((reg.drop i).take 100)

/-! ## Swap estimation (src/lib/ref-finance/swap.ts lines 126-188) -/

/-- Result record of `estimateSwap` (string fields, as in the source). -/
structure SwapEstimate where
  inputToken : String
  outputToken : String
  inputAmount : String
  expectedOutput : String
  minimumOutput : String
  priceImpact : String
  pool : List String
deriving DecidableEq, Repr

/-- Environment for `estimateSwap`: the pool RPC outcomes and the outcome
of the `get_return` quote call for a given pool id (the quoted amount is
the parsed smallest-unit integer). -/
structure EstimateEnv where
  poolEnv : PoolEnv
  getReturn : Nat → Except String Nat

/-- Model of `estimateSwap` (swap.ts lines 126-188): locate the pool
(failing with "No liquidity pool found" when `findPool` yields none),
normalize the input amount, query `get_return`, and compute the minimum
output as `BigInt(expectedOutput) * 99n / 100n` — exact integer
arithmetic, rendered back to a decimal string. -/
def estimateSwap (env : EstimateEnv) (inputTokenId inputAmount outputTokenId : String) :
    Except String SwapEstimate :=
  match findPool env.poolEnv inputTokenId outputTokenId with
  | none =>
      .error ("No liquidity pool found for " ++ inputTokenId ++ " <-> " ++ outputTokenId)
  | some poolId => do
    let _inputAmountStr ← convertScientificToString inputAmount
    let expectedOutput ← env.getReturn poolId
    .ok { inputToken := inputTokenId
          outputToken := outputTokenId
          inputAmount := inputAmount
          expectedOutput := natToDecString expectedOutput
          minimumOutput := natToDecString (expectedOutput * 99 / 100)
          priceImpact := "0.5"
          pool := [natToDecString poolId] }

/-! ## Token catalog (token analyzer lines 92-201)

The indexer HTTP call, the liquidity probe and the static fallback import
are modelled as environment parameters.  `parseFloat` on price strings is
modelled by an abstract `pf : String → Option ℚ` (`none` = NaN), since the
filter, the sort and the stated properties all go through that same
function. -/

/-- Substring test (JS `String.prototype.includes`). -/
def strContains (s sub : String) : Bool := decide (sub.toList <:+: s.toList)

/-- Character-wise lowercasing (JS `String.prototype.toLowerCase` on the
ASCII strings involved); structural so that terms reduce definitionally. -/
def strToLower (s : String) : String := ⟨s.toList.map Char.toLower⟩

/-- Character-wise uppercasing (JS `String.prototype.toUpperCase` on the
ASCII strings involved). -/
def strToUpper (s : String) : String := ⟨s.toList.map Char.toUpper⟩

/-- Token descriptor (`TokenInfo` in the source). -/
structure TokenInfo where
  token_account_id : String
  symbol : String
  price : String
  decimal : Nat
deriving DecidableEq, Repr

/-- Raw indexer entry value: the `symbol` / `price` / `decimal` fields as
they may or may not be present (`none` models a missing/falsy field; the
empty string and the number 0 are falsy in JS). -/
structure RawInfo where
  symbol : Option String
  price : Option String
  decimal : Option Nat
deriving Repr

/-- JS `a || b` on an optional string: falsy (absent or empty) falls back. -/
def jsOrStr (a : Option String) (b : String) : String :=
  match a with
  | some s => if s.isEmpty then b else s
  | none => b

/-- JS `a || b` on an optional number: falsy (absent or 0) falls back. -/
def jsOrNat (a : Option Nat) (b : Nat) : Nat :=
  match a with
  | some n => if n = 0 then b else n
  | none => b

/-- Build of one catalog entry from an indexer row
(`token_account_id.split(".")[0].toUpperCase()` is the symbol fallback). -/
def mkToken (row : String × RawInfo) : TokenInfo where
  token_account_id := row.1
  symbol := jsOrStr row.2.symbol (strToUpper ((row.1.splitOn ".").headD ""))
  price := jsOrStr row.2.price "0"
  decimal := jsOrNat row.2.decimal 18

/-- Positive-price filter `parseFloat(token.price) > 0` (NaN compares
false). -/
def pricePos (pf : String → Option ℚ) (t : TokenInfo) : Bool :=
  match pf t.price with
  | some q => decide (0 < q)
  | none => false

/-- Sort key: the parsed price (NaN keyed as 0; every sorted list in the
source is filtered to parsable positive prices first). -/
def priceKey (pf : String → Option ℚ) (t : TokenInfo) : ℚ := (pf t.price).getD 0

/-- JS `.sort((a, b) => parseFloat(b.price) - parseFloat(a.price))`:
sort by descending parsed price. -/
def sortByPriceDesc (pf : String → Option ℚ) (l : List TokenInfo) : List TokenInfo :=
  l.mergeSort (fun a b => decide (priceKey pf b ≤ priceKey pf a))

/-- Liquidity-collection loop of `fetchAvailableTokens` (lines 118-136):
walk the top candidates, skip the wrapped-native asset, keep tokens whose
liquidity probe succeeds, and stop once 15 are collected (`cnt` is the
number already collected). -/
def collectLiquid (hasLiq : String → Bool) : List TokenInfo → Nat → List TokenInfo
  | [], _ => []
  | t :: ts, cnt =>
    if t.token_account_id = WRAP_NEAR_TOKEN then collectLiquid hasLiq ts cnt
    else if hasLiq t.token_account_id then
      if cnt + 1 ≥ 15 then [t] else t :: collectLiquid hasLiq ts (cnt + 1)
    else collectLiquid hasLiq ts cnt

/-- Fallback entry value of the static dataset (fields are accessed
directly, without `||` defaults). -/
structure FallbackInfo where
  symbol : String
  price : String
  decimal : Nat
deriving Repr

/-- Build of one catalog entry from a static-fallback row. -/
def mkFallbackToken (row : String × FallbackInfo) : TokenInfo where
  token_account_id := row.1
  symbol := row.2.symbol
  price := row.2.price
  decimal := row.2.decimal

/-- Built-in last-resort token list (token analyzer lines 180-199). -/
def builtinTokens : List TokenInfo :=
  [ { token_account_id := "wbtc.fakes.testnet", symbol := "WBTC",
      price := "101700", decimal := 8 },
    { token_account_id := "usdt.fakes.testnet", symbol := "USDT.e",
      price := "0.999892", decimal := 6 },
    { token_account_id := "dai.fakes.testnet", symbol := "DAI",
      price := "0.999892", decimal := 18 } ]

/-- Model of `loadFallbackTokens` (token analyzer lines 161-201).
Modelled from the spec: the bundled static dataset
`testnet-tokens-fallback.json` is not part of the provided sources; its
parsed rows (or the failure of the dynamic import) are the parameter
`fallbackData`.  A loaded dataset is mapped, filtered to positive prices,
sorted by descending price and capped at 15; a failed load yields the
built-in three-token list. -/
def loadFallbackTokens (fallbackData : Except String (List (String × FallbackInfo)))
    (pf : String → Option ℚ) : List TokenInfo :=
  match fallbackData with
  | .error _ => builtinTokens
  | .ok rows =>
    ((sortByPriceDesc pf (((rows.map mkFallbackToken).filter (pricePos pf))))).take 15

/-- Model of `fetchAvailableTokens` (token analyzer lines 92-156).
`indexer` is the outcome of the HTTP fetch (non-ok responses and json
failures are `.error`), `hasLiq` the per-token outcome of
`hasLiquidityPool` (which never throws), `fallbackData` the static
dataset import.  The priced entries are filtered to positive prices,
sorted by descending price, the top 30 are probed for liquidity
collecting at most 15; an empty collection or a fetch error falls back to
the static dataset. -/
def fetchAvailableTokens (indexer : Except String (List (String × RawInfo)))
    (hasLiq : String → Bool)
    (fallbackData : Except String (List (String × FallbackInfo)))
    (pf : String → Option ℚ) : List TokenInfo :=
  match indexer with
  | .error _ => loadFallbackTokens fallbackData pf
  | .ok rows =>
    let allTokens := sortByPriceDesc pf ((rows.map mkToken).filter (pricePos pf))
    let tokensWithLiquidity := collectLiquid hasLiq (allTokens.take 30) 0
    if tokensWithLiquidity.isEmpty then loadFallbackTokens fallbackData pf
    else tokensWithLiquidity

/-! ## Token predictor (token analyzer lines 209-377) -/

/-- Prediction record (`TokenPrediction` in the source); `confidence` is a
rational standing for the JS number. -/
structure TokenPrediction where
  selectedToken : String
  symbol : String
  reasoning : String
  confidence : ℚ
  price : String
deriving DecidableEq, Repr

/-- Stablecoin substrings used by the predictor fallback. -/
def stablecoinSubs : List String := ["usdt", "usdc", "dai", "usn", "busd"]

/-- Deterministic keyword fallback of `predictBestToken` (lines 323-376):
keyword priorities stable > btc > eth over the lowercased goal, defaulting
to the catalog's first entry.  With an empty catalog every branch ends by
dereferencing `undefined` (`tokens[0]`), modelled as an error. -/
def predictFallback (tokens : List TokenInfo) (agentGoal : String) :
    Except String TokenPrediction :=
  match tokens with
  | [] => .error "Cannot read properties of undefined"
  | t0 :: _ =>
    let goalLower := strToLower agentGoal
    let pick : TokenInfo × String :=
      if strContains goalLower "stable" then
        match tokens.find? (fun t =>
            stablecoinSubs.any (fun s => strContains (strToLower t.symbol) s)) with
        | some st =>
          (st, "Selected " ++ st.symbol ++
            " as a stable token based on user instruction for stable tokens. This is a fallback selection due to AI analysis error.")
        | none =>
          (t0, "Selected based on highest price and liquidity. This is a fallback selection due to AI analysis error.")
      else if strContains goalLower "btc" || strContains goalLower "bitcoin" then
        match tokens.find? (fun t => strContains (strToLower t.symbol) "btc") with
        | some bt =>
          (bt, "Selected " ++ bt.symbol ++
            " based on user mention of BTC/Bitcoin. This is a fallback selection due to AI analysis error.")
        | none =>
          (t0, "Selected based on highest price and liquidity. This is a fallback selection due to AI analysis error.")
      else if strContains goalLower "eth" || strContains goalLower "ethereum" then
        match tokens.find? (fun t => strContains (strToLower t.symbol) "eth") with
        | some et =>
          (et, "Selected " ++ et.symbol ++
            " based on user mention of ETH/Ethereum. This is a fallback selection due to AI analysis error.")
        | none =>
          (t0, "Selected based on highest price and liquidity. This is a fallback selection due to AI analysis error.")
      else
        (t0, "Selected based on highest price and liquidity. This is a fallback selection due to AI analysis error.")
    .ok { selectedToken := pick.1.token_account_id
          symbol := pick.1.symbol
          reasoning := pick.2
          confidence := 1 / 2
          price := pick.1.price }

/-- Prediction JSON as parsed from the model output (fields of the object
the model was asked to emit). -/
structure PredictionJson where
  selectedToken : String
  symbol : String
  reasoning : String
  confidence : ℚ
  price : String
deriving Repr

/-- Model of `predictBestToken` (token analyzer lines 209-377) from the
LLM call outcome onward: `modelOut` is `.error` when the completion call
rejects or the response fails JSON extraction/parsing, `.ok` the parsed
object otherwise.  The model path validates non-empty `selectedToken` and
`reasoning`, resolves the returned identifier against the catalog by
contract id or symbol, and overwrites `selectedToken`/`symbol`/`price`
with the catalog's canonical values; any failure (including no catalog
match) falls back to `predictFallback`. -/
def predictBestToken (tokens : List TokenInfo) (agentGoal : String)
    (modelOut : Except String PredictionJson) : Except String TokenPrediction :=
  let attempt : Except String TokenPrediction :=
    match modelOut with
    | .error e => .error e
    | .ok pj =>
      if pj.selectedToken.isEmpty || pj.reasoning.isEmpty then
        .error "Invalid prediction format: missing required fields"
      else
        match tokens.find? (fun t =>
            t.token_account_id == pj.selectedToken || t.symbol == pj.selectedToken) with
        | none =>
          .error ("Selected token \"" ++ pj.selectedToken ++ "\" not found in available tokens")
        | some mt =>
          .ok { selectedToken := mt.token_account_id
                symbol := mt.symbol
                reasoning := pj.reasoning
                confidence := pj.confidence
                price := mt.price }
  match attempt with
  | .ok p => .ok p
  | .error _ => predictFallback tokens agentGoal

/-! ## Task planner (task-planner source lines 181-279) -/

/-- Planned task entry. -/
structure PlannedTask where
  type : String
  description : String
  order : Int
deriving DecidableEq, Repr

/-- Fixed 5-step default plan returned on any planner failure. -/
def defaultPlan : List PlannedTask :=
  [ { type := "fetch_tokens",
      description := "Fetch available tokens from Ref Finance testnet", order := 1 },
    { type := "analyze_market",
      description := "Analyze token prices and market data using AI", order := 2 },
    { type := "predict_token",
      description := "Predict the best token for investment", order := 3 },
    { type := "prepare_swap",
      description := "Prepare swap transactions (wrap NEAR, approve, swap)", order := 4 },
    { type := "execute_swap",
      description := "Sign and execute swap transaction on NEAR testnet", order := 5 } ]

/-- Validity filter of the planner: non-empty `type` and `description`
and truthy (non-zero) `order`. -/
def taskValid (t : PlannedTask) : Bool :=
  !t.type.isEmpty && !t.description.isEmpty && t.order != 0

/-- Model of `planAgentTasks` (task planner lines 181-279) from the parsed
LLM response onward: `parsed` is `.error` when the completion call
rejects, JSON extraction/parsing throws, or the parsed value is not an
array (`.filter` on a non-array throws); `.ok` carries the parsed array.
Valid entries are kept and sorted ascending by `order`; any failure
returns the fixed default plan. -/
def planAgentTasks (parsed : Except String (List PlannedTask)) : List PlannedTask :=
  match parsed with
  | .ok tasks => (tasks.filter taskValid).mergeSort (fun a b => decide (a.order ≤ b.order))
  | .error _ => defaultPlan

/-! ## Swap executor (swap-executor source lines 34-235)

`executeTokenSwap` wraps NEAR, reads back the wrapped balance, estimates,
builds the remaining transactions and submits them sequentially, polling
finality between any two non-final submissions.  All network effects are
an environment: outcomes of the wrap call, the balance read, the
estimate, the build, each remaining submission, and the per-attempt
finality poll observations. -/

/-- Environment of one `executeTokenSwap` run. -/
structure SwapEnv where
  /-- `utils.format.parseNearAmount(amountInNear)`: `none` models `null`
  (which throws "Invalid NEAR amount"). -/
  parseNearAmount : Option String
  /-- Outcome of the wrap `signAndSendTransaction`: the wrap tx hash. -/
  wrap : Except String String
  /-- Outcome of the `ft_balance_of` read-back (the actual wNEAR balance). -/
  wNearBalance : Except String String
  /-- Outcome of `estimateSwap` for the wrapped balance. -/
  estimate : Except String SwapEstimate
  /-- Outcome of `generateSwapTransaction` (the list is abstracted to its
  length: submissions are indexed). -/
  buildTxs : Except String Nat
  /-- Outcome of submitting the i-th built transaction: its hash. -/
  submit : Nat → Except String String
  /-- Whether the finality poll observes a `SuccessValue` status for the
  given hash at the given attempt (an RPC throw or a non-success status
  are both `false`: the loop just keeps waiting). -/
  pollOk : String → Nat → Bool

/-- Result record of `executeTokenSwap`. -/
structure SwapResult where
  success : Bool
  transactionHash : Option String
  error : Option String
  amountSwapped : Option String
deriving DecidableEq, Repr

/-- Finality-poll loop (lines 184-209) with explicit fuel (structural
recursion; the fuel is irrelevant as long as `30 ≤ a + fuel`): attempts
counted from `a`; stops early on an observed success, else runs to 30;
returns the final value of `attempts`. -/
def pollExitF (env : SwapEnv) (h : String) : Nat → Nat → Nat
  | 0, a => a
  | fuel + 1, a =>
    if a < 30 then
      if env.pollOk h a then a else pollExitF env h fuel (a + 1)
    else a

/-- Finality-poll loop from attempt `a` with adequate fuel. -/
def pollExit (env : SwapEnv) (h : String) (a : Nat) : Nat :=
  pollExitF env h 30 a

/-- Submission loop (lines 148-218) from index `i` of `n` built
transactions: submit, and between any two non-final transactions poll
finality (30 attempts; exhaustion throws "... did not finalize in time").
Returns the list of indices submitted from `i` on, with the accumulated
hash list or the thrown error. -/
def execLoopF (env : SwapEnv) (n : Nat) :
    Nat → Nat → List String → List Nat × Except String (List String)
  | 0, _, hashes => ([], .ok hashes)
  | fuel + 1, i, hashes =>
    if i < n then
      match env.submit i with
      | .error e => ([], .error e)
      | .ok txHash =>
        if i < n - 1 then
          if pollExit env txHash 0 ≥ 30 then
            ([i], .error ("Transaction " ++ txHash ++ " did not finalize in time"))
          else
            let rest := execLoopF env n fuel (i + 1) (hashes ++ [txHash])
            (i :: rest.1, rest.2)
        else ([i], .ok (hashes ++ [txHash]))
    else ([], .ok hashes)

/-- Submission loop from index `i` with adequate fuel (the fuel is
irrelevant as long as `n < i + fuel`). -/
def execLoopFrom (env : SwapEnv) (n i : Nat) (hashes : List String) :
    List Nat × Except String (List String) :=
  execLoopF env n (n + 1) i hashes

/-- Model of `executeTokenSwap` (lines 34-235): the pipeline of wrap,
balance read-back, estimate, build and sequential submission inside one
try/catch; any thrown error is converted to `success: false` with the
message.  Returns the indices of the built transactions that were
actually submitted together with the result record. -/
def executeTokenSwap (env : SwapEnv) (amountInNear : String) :
    List Nat × SwapResult :=
  let run : List Nat × Except String (List String) :=
    match env.parseNearAmount with
    | none => ([], .error "Invalid NEAR amount")
    | some _ =>
      match env.wrap with
      | .error e => ([], .error e)
      | .ok wrapHash =>
        match env.wNearBalance with
        | .error e => ([], .error e)
        | .ok _ =>
          match env.estimate with
          | .error e => ([], .error e)
          | .ok _ =>
            match env.buildTxs with
            | .error e => ([], .error e)
            | .ok n => execLoopFrom env n 0 [wrapHash]
  match run with
  | (submitted, .ok hashes) =>
    (submitted,
      { success := true, transactionHash := hashes.getLast?,
        error := none, amountSwapped := some amountInNear })
  | (submitted, .error e) =>
    (submitted,
      { success := false, transactionHash := none,
        error := some e, amountSwapped := none })

/-! ## Task history ledger (src/lib/agents/task-history-service.ts) -/

/-- Task status enumeration. -/
inductive TaskStatus
  | pending
  | running
  | completed
  | failed
deriving DecidableEq, Repr

/-- Structured input/output snapshots stored in ledger rows by the
orchestrator (the source stores them as JSON). -/
inductive TaskPayload
  | planInput (description : Option String) (balance : String)
  | planOutput (tasks : List PlannedTask)
  | fetchOutput (tokenCount : Nat) (sample : List TokenInfo)
  | predictInput (tokenCount : Nat)
  | predictionOutput (p : TokenPrediction)
  | swapInput (token symbol amount : String)
  | swapOutput (r : SwapResult)
deriving DecidableEq, Repr

/-- One ledger row (`AgentTaskHistory`); timestamps are naturals. -/
structure TaskRecord where
  agentId : String
  taskType : String
  taskDescription : String
  taskInput : Option TaskPayload
  taskOutput : Option TaskPayload
  status : TaskStatus
  errorMessage : Option String
  startedAt : Nat
  completedAt : Option Nat
deriving DecidableEq, Repr

/-- Payload of `createTask`. -/
structure CreateTaskData where
  agentId : String
  taskType : String
  taskDescription : String
  taskInput : Option TaskPayload := none

/-- Payload of `updateTask` (`status` is the only required field). -/
structure UpdateTaskData where
  taskOutput : Option TaskPayload := none
  status : TaskStatus
  errorMessage : Option String := none
  completedAt : Option Nat := none

/-- Model of `TaskHistoryService.createTask` (lines 28-42): inserts a row
with status `pending`, `startedAt = now`, the supplied input (`|| null`)
and no completion time (the column has no default value). -/
def createTask (now : Nat) (d : CreateTaskData) : TaskRecord where
  agentId := d.agentId
  taskType := d.taskType
  taskDescription := d.taskDescription
  taskInput := d.taskInput
  taskOutput := none
  status := .pending
  errorMessage := none
  startedAt := now
  completedAt := none

/-- Model of `TaskHistoryService.updateTask` (lines 47-63): overwrites
status, output (`|| null`) and error (`|| null`), and sets `completedAt`
to the supplied value if given, else to `now` exactly when the new status
is completed or failed (else resets it to null). -/
def updateTask (now : Nat) (d : UpdateTaskData) (t : TaskRecord) : TaskRecord :=
  { t with
    status := d.status
    taskOutput := d.taskOutput
    errorMessage := d.errorMessage
    completedAt :=
      match d.completedAt with
      | some c => some c
      | none =>
        if d.status = .completed ∨ d.status = .failed then some now else none }

/-! ## Agent orchestrator (agent-executor source lines 270-431)

`executeAgent` is modelled with the ledger as an explicit store (a list of
rows whose ids are their indices) and every external outcome as an
environment.  Database inserts/updates are modelled as total (their
rejection is not exercised by any claim). -/

/-- The agent row joined with its decrypted key
(`agentService.getAgentWithPrivateKey`). -/
structure AgentRec where
  accountId : String
  description : Option String
  status : String
  decryptedPrivateKey : String

/-- Environment of one `executeAgent` run. -/
structure OrchEnv where
  /-- Outcome of `getAgentWithPrivateKey` (`.ok none` = no such agent). -/
  agent : Except String (Option AgentRec)
  /-- Outcome of `fetchAccountBalance`. -/
  balance : Except String String
  /-- Parsed LLM response feeding `planAgentTasks` (which never throws). -/
  planParsed : Except String (List PlannedTask)
  /-- Indexer fetch outcome feeding `fetchAvailableTokens` (never throws). -/
  indexer : Except String (List (String × RawInfo))
  /-- Liquidity probe outcomes feeding `fetchAvailableTokens`. -/
  hasLiq : String → Bool
  /-- Static fallback dataset import outcome. -/
  fallbackData : Except String (List (String × FallbackInfo))
  /-- The `parseFloat` interpretation of price strings. -/
  pf : String → Option ℚ
  /-- Parsed LLM response feeding `predictBestToken` (which can throw). -/
  modelOut : Except String PredictionJson
  /-- The swap amount extracted from the agent description by the ordered
  regex patterns against the balance, with default "0.5" (source lines
  345-369); the extraction is pure and exception-free and its value does
  not affect any claim, so it is abstracted as an input. -/
  swapAmount : String
  /-- Environment of the `executeTokenSwap` call (which never throws). -/
  swapEnv : SwapEnv

/-- Result record of `executeAgent` (`ExecutionResult`). -/
structure ExecutionResult where
  success : Bool
  taskIds : List Nat
  error : Option String
deriving DecidableEq, Repr

/-- Store of ledger rows; a row's id is its index. -/
abbrev TaskStore := List TaskRecord

/-- Update of the row with the given id, if present. -/
def storeUpdate (now : Nat) (s : TaskStore) (id : Nat) (d : UpdateTaskData) : TaskStore :=
  match s.get? id with
  | some t => s.set id (updateTask now d t)
  | none => s

/-- Catch block of `executeAgent` (lines 411-430): every created task
still in `running` status is force-transitioned to `failed` with the
caught error's message. -/
def failRunning (now : Nat) (e : String) (s : TaskStore) (ids : List Nat) : TaskStore :=
  ids.foldl
    (fun s id =>
      match s.get? id with
      | some t =>
        if t.status = .running then
          s.set id (updateTask now { status := .failed, errorMessage := some e } t)
        else s
      | none => s)
    s

/-- Model of `executeAgent` (agent-executor lines 270-431): fetch the
agent (rejecting a missing or non-active one), read the balance, then run
the four ledger-bracketed stages — plan, fetch tokens, predict, swap.
The swap stage logs `completed` or `failed` according to the executor's
result record, and the function then returns `success: true` with all
four task ids; only a thrown error reaches the catch block, which
force-fails running rows and returns `success: false` with the partial id
list and the message. -/
def executeAgent (env : OrchEnv) (agentId : String) : TaskStore × ExecutionResult :=
  let now := 0
  match env.agent with
  | .error e => ([], { success := false, taskIds := [], error := some e })
  | .ok none => ([], { success := false, taskIds := [], error := some "Agent not found" })
  | .ok (some agent) =>
    if agent.status ≠ "active" then
      ([], { success := false, taskIds := [], error := some "Agent is not active" })
    else
      match env.balance with
      | .error e => ([], { success := false, taskIds := [], error := some e })
      | .ok balance =>
        let s0 : TaskStore :=
          [createTask now
            { agentId := agentId, taskType := "plan_tasks",
              taskDescription := "Analyze agent description and create task plan",
              taskInput := some (.planInput agent.description balance) }]
        let s1 := storeUpdate now s0 0 { status := .running }
        let tasks := planAgentTasks env.planParsed
        let s2 := storeUpdate now s1 0
          { status := .completed, taskOutput := some (.planOutput tasks) }
        let s3 := s2 ++
          [createTask now
            { agentId := agentId, taskType := "fetch_tokens",
              taskDescription := "Fetch available tokens from Ref Finance" }]
        let s4 := storeUpdate now s3 1 { status := .running }
        let tokens := fetchAvailableTokens env.indexer env.hasLiq env.fallbackData env.pf
        let s5 := storeUpdate now s4 1
          { status := .completed,
            taskOutput := some (.fetchOutput tokens.length (tokens.take 10)) }
        let s6 := s5 ++
          [createTask now
            { agentId := agentId, taskType := "predict_token",
              taskDescription := "Use AI to analyze tokens and predict best investment",
              taskInput := some (.predictInput tokens.length) }]
        let s7 := storeUpdate now s6 2 { status := .running }
        match predictBestToken tokens (jsOrStr agent.description "Find best token")
            env.modelOut with
        | .error e =>
          (failRunning now e s7 [0, 1, 2],
            { success := false, taskIds := [0, 1, 2], error := some e })
        | .ok prediction =>
          let s8 := storeUpdate now s7 2
            { status := .completed, taskOutput := some (.predictionOutput prediction) }
          let s9 := s8 ++
            [createTask now
              { agentId := agentId, taskType := "execute_swap",
                taskDescription :=
                  "Swap " ++ env.swapAmount ++ " NEAR for " ++ prediction.symbol,
                taskInput := some
                  (.swapInput prediction.selectedToken prediction.symbol env.swapAmount) }]
          let s10 := storeUpdate now s9 3 { status := .running }
          let swapResult := (executeTokenSwap env.swapEnv env.swapAmount).2
          let s11 :=
            if swapResult.success then
              storeUpdate now s10 3
                { status := .completed, taskOutput := some (.swapOutput swapResult) }
            else
              storeUpdate now s10 3
                { status := .failed, errorMessage := swapResult.error,
                  taskOutput := some (.swapOutput swapResult) }
          (s11, { success := true, taskIds := [0, 1, 2, 3], error := none })

/-! # Theorems -/

/-- C9: a record produced by `createTask` has status `pending` with
`completedAt` unset, and after any `updateTask` with no explicit
`completedAt` supplied, the record's `completedAt` is set if and only if
its (new) status is `completed` or `failed`. -/
theorem ledger_completedAt_invariant (now now' : Nat) (d : CreateTaskData)
    (d' : UpdateTaskData) (t : TaskRecord) (hnc : d'.completedAt = none) :
    (createTask now d).status = .pending ∧ (createTask now d).completedAt = none ∧
      (updateTask now' d' t).status = d'.status ∧
      ((updateTask now' d' t).completedAt.isSome = true ↔
        (d'.status = .completed ∨ d'.status = .failed)) := by
  refine ⟨rfl, rfl, rfl, ?_⟩
  simp only [updateTask, hnc]
  by_cases h : d'.status = .completed ∨ d'.status = .failed <;> simp [h]

/-- Witness for C9 at a concrete update payload. -/
theorem ledger_completedAt_invariant_witness :
    (updateTask 7 { status := .failed } (createTask 3
      { agentId := "a", taskType := "setup",
        taskDescription := "d" })).completedAt.isSome = true :=
  (ledger_completedAt_invariant 3 7
      { agentId := "a", taskType := "setup", taskDescription := "d" }
      { status := .failed } (createTask 3
        { agentId := "a", taskType := "setup", taskDescription := "d" })
      rfl).2.2.2.mpr (Or.inr rfl)

/-- C6: whenever `estimateSwap` succeeds with a quoted expected output
`e`, the returned `minimumOutput` is the decimal rendering of the natural
number `e * 99 / 100`, which is exactly the floor of `e * 99 / 100` in
exact integer arithmetic (characterized by the two inequalities, with no
floating-point rounding anywhere). -/
theorem estimateSwap_minimumOutput (env : EstimateEnv)
    (tin amt tout s : String) (pid e : Nat)
    (hp : findPool env.poolEnv tin tout = some pid)
    (hc : convertScientificToString amt = .ok s)
    (hr : env.getReturn pid = .ok e) :
    (∃ est, estimateSwap env tin amt tout = .ok est ∧
        est.minimumOutput = natToDecString (e * 99 / 100) ∧
        est.expectedOutput = natToDecString e) ∧
      (e * 99 / 100) * 100 ≤ e * 99 ∧ e * 99 < ((e * 99 / 100) + 1) * 100 := by
  have hdm := Nat.div_add_mod (e * 99) 100
  have hlt : e * 99 % 100 < 100 := Nat.mod_lt _ (by omega)
  have hes : estimateSwap env tin amt tout = .ok
      { inputToken := tin, outputToken := tout, inputAmount := amt,
        expectedOutput := natToDecString e,
        minimumOutput := natToDecString (e * 99 / 100),
        priceImpact := "0.5", pool := [natToDecString pid] } := by
    simp only [estimateSwap, hp, hc, hr]
    rfl
  exact ⟨⟨_, hes, rfl, rfl⟩, by omega, by omega⟩

/-- Witness for C6 at a concrete environment with quote 101. -/
theorem estimateSwap_minimumOutput_witness :
    ∃ est, estimateSwap
        { poolEnv := honestPoolEnv [{ token_account_ids := ["wrap.testnet", "usdt.fakes.testnet"] }],
          getReturn := fun _ => .ok 101 }
        "wrap.testnet" "1000" "usdt.fakes.testnet" = .ok est ∧
      est.minimumOutput = natToDecString 99 :=
  match estimateSwap_minimumOutput
      { poolEnv := honestPoolEnv [{ token_account_ids := ["wrap.testnet", "usdt.fakes.testnet"] }],
        getReturn := fun _ => .ok 101 }
      "wrap.testnet" "1000" "usdt.fakes.testnet" "1000" 0 101
      rfl rfl rfl with
  | ⟨⟨est, hok, hmin, _⟩, _, _⟩ => ⟨est, hok, hmin⟩

/-- C4 counterexample: a successfully parsed empty array is returned
empty — `planAgentTasks` does not fall back to the default plan on an
empty parsed result, contradicting both the non-emptiness and the
empty-result-fallback parts of the claim. -/
theorem planAgentTasks_empty_counterexample :
    planAgentTasks (.ok []) = [] ∧ planAgentTasks (.ok []) ≠ defaultPlan := by
  have h : planAgentTasks (.ok []) = [] := by
    simp [planAgentTasks]
  refine ⟨h, ?_⟩
  rw [h]
  intro hcontra
  exact absurd (congrArg List.length hcontra) (by decide)

/-- C4 (amended): `planAgentTasks` always returns a list sorted ascending
by `order`; on a network or parse failure it returns the fixed 5-step
default plan, whose types are fetch_tokens, analyze_market,
predict_token, prepare_swap, execute_swap with orders 1 through 5; but a
successfully parsed array yields exactly its valid entries sorted, which
is empty when no entry is valid, so the returned list is not non-empty in
general. -/
theorem planAgentTasks_sorted_and_default (parsed : Except String (List PlannedTask)) :
    (planAgentTasks parsed).Pairwise (fun a b => a.order ≤ b.order) ∧
      (∀ e, parsed = .error e → planAgentTasks parsed = defaultPlan) ∧
      defaultPlan.map (fun t => (t.type, t.order)) =
        [("fetch_tokens", 1), ("analyze_market", 2), ("predict_token", 3),
         ("prepare_swap", 4), ("execute_swap", 5)] ∧
      (∀ l, parsed = .ok l →
        planAgentTasks parsed =
          (l.filter taskValid).mergeSort (fun a b => decide (a.order ≤ b.order))) := by
  refine ⟨?_, ?_, by decide, ?_⟩
  · cases parsed with
    | error e => simp [planAgentTasks]; decide
    | ok l =>
      have hs := @List.sorted_mergeSort PlannedTask
        (fun a b : PlannedTask => decide (a.order ≤ b.order))
        (fun a b c hab hbc => by
          simp only [decide_eq_true_eq] at hab hbc ⊢
          exact le_trans hab hbc)
        (fun a b => by
          simp only [Bool.or_eq_true, decide_eq_true_eq]
          exact le_total a.order b.order)
        (l.filter taskValid)
      simpa [planAgentTasks] using hs.imp (fun h => of_decide_eq_true h)
  · intro e he; rw [he]; rfl
  · intro l hl; rw [hl]; rfl

/-- Witness for C4 at a concrete failing parse. -/
theorem planAgentTasks_sorted_and_default_witness :
    planAgentTasks (.error "fetch failed") = defaultPlan :=
  (planAgentTasks_sorted_and_default (.error "fetch failed")).2.1 "fetch failed" rfl

/-- C2: whenever the model output's identifier resolves in the catalog
(matching the first entry whose contract id or symbol equals it), the
returned prediction carries that entry's canonical `token_account_id`,
`symbol` and `price` — never the model's raw string as such; and when no
catalog entry matches, the model path fails and the deterministic keyword
fallback is used instead. -/
theorem predictBestToken_canonical (tokens : List TokenInfo) (goal : String)
    (pj : PredictionJson) (hsel : pj.selectedToken.isEmpty = false)
    (hreas : pj.reasoning.isEmpty = false) :
    (∀ t, tokens.find? (fun t =>
          t.token_account_id == pj.selectedToken || t.symbol == pj.selectedToken) = some t →
        (t ∈ tokens ∧
          (t.token_account_id = pj.selectedToken ∨ t.symbol = pj.selectedToken)) ∧
        predictBestToken tokens goal (.ok pj) =
          .ok { selectedToken := t.token_account_id, symbol := t.symbol,
                reasoning := pj.reasoning, confidence := pj.confidence,
                price := t.price }) ∧
      (tokens.find? (fun t =>
          t.token_account_id == pj.selectedToken || t.symbol == pj.selectedToken) = none →
        predictBestToken tokens goal (.ok pj) = predictFallback tokens goal) := by
  constructor
  · intro t hf
    constructor
    · refine ⟨List.mem_of_find?_eq_some hf, ?_⟩
      have := List.find?_some hf
      simp only [Bool.or_eq_true, beq_iff_eq] at this
      exact this
    · simp [predictBestToken, hsel, hreas, hf, Except.bind]
  · intro hf
    simp [predictBestToken, hsel, hreas, hf, Except.bind]

/-- Witness for C2: a model output naming a token by bare symbol is
rewritten to the catalog entry's contract id. -/
theorem predictBestToken_canonical_witness :
    predictBestToken
        [{ token_account_id := "usdt.fakes.testnet", symbol := "USDT.e",
           price := "0.999892", decimal := 6 }]
        "buy a stable token"
        (.ok { selectedToken := "USDT.e", symbol := "USDT.e",
               reasoning := "stable", confidence := 9 / 10, price := "1" }) =
      .ok { selectedToken := "usdt.fakes.testnet", symbol := "USDT.e",
            reasoning := "stable", confidence := 9 / 10, price := "0.999892" } :=
  (((predictBestToken_canonical
      [{ token_account_id := "usdt.fakes.testnet", symbol := "USDT.e",
         price := "0.999892", decimal := 6 }]
      "buy a stable token"
      { selectedToken := "USDT.e", symbol := "USDT.e",
        reasoning := "stable", confidence := 9 / 10, price := "1" }
      rfl rfl).1
    { token_account_id := "usdt.fakes.testnet", symbol := "USDT.e",
      price := "0.999892", decimal := 6 }
    (by rfl)).2)

/-- Concrete orchestrator environment in which every stage runs without
throwing, but the swap executor returns a failure result (its
`parseNearAmount` yields null, so `executeTokenSwap` catches the thrown
"Invalid NEAR amount" and returns `success: false`). -/
def cexOrchEnv : OrchEnv where
  agent := .ok (some
    { accountId := "vanta-agent.testnet",
      description := some "swap 0.5 near to a stable token",
      status := "active", decryptedPrivateKey := "ed25519:secret" })
  balance := .ok "10"
  planParsed := .error "model unavailable"
  indexer := .error "indexer down"
  hasLiq := fun _ => false
  fallbackData := .error "import failed"
  pf := fun _ => none
  modelOut := .error "model unavailable"
  swapAmount := "0.5"
  swapEnv :=
    { parseNearAmount := none, wrap := .ok "wrapHash", wNearBalance := .ok "0",
      estimate := .error "unused", buildTxs := .error "unused",
      submit := fun _ => .error "unused", pollOk := fun _ _ => false }

set_option maxHeartbeats 2000000 in
/-- C1 counterexample: a run in which the Swap Executor returns a failure
result, the `execute_swap` ledger row is logged `failed` — yet
`executeAgent` reports the run with `success: true`, contradicting the
claim that it then reports `success: false`. -/
theorem executeAgent_partial_success_counterexample :
    (executeTokenSwap cexOrchEnv.swapEnv cexOrchEnv.swapAmount).2.success = false ∧
      (executeAgent cexOrchEnv "agent-1").2.success = true ∧
      (executeAgent cexOrchEnv "agent-1").1.map (fun r => r.status) =
        [.completed, .completed, .completed, .failed] := by
  refine ⟨rfl, rfl, ?_⟩
  decide

set_option maxHeartbeats 2000000 in
/-- C1 (amended): `executeAgent` reports `success: false` — with the
partial task id list and the error string — only when an exception
escapes a stage (here: the predictor throwing); when the Swap Executor
merely returns a failure result without throwing, the `execute_swap`
ledger row is logged `failed` carrying the executor's error, but
`executeAgent` returns `success: true` with all four task ids, so a
caller can receive partial success. -/
theorem executeAgent_success_semantics (env : OrchEnv) (agentId : String)
    (a : AgentRec) (b : String)
    (hag : env.agent = .ok (some a)) (hact : a.status = "active")
    (hbal : env.balance = .ok b) :
    (∀ e, predictBestToken
          (fetchAvailableTokens env.indexer env.hasLiq env.fallbackData env.pf)
          (jsOrStr a.description "Find best token") env.modelOut = .error e →
        (executeAgent env agentId).2 =
          { success := false, taskIds := [0, 1, 2], error := some e }) ∧
      (∀ p, predictBestToken
          (fetchAvailableTokens env.indexer env.hasLiq env.fallbackData env.pf)
          (jsOrStr a.description "Find best token") env.modelOut = .ok p →
        (executeAgent env agentId).2 =
          { success := true, taskIds := [0, 1, 2, 3], error := none } ∧
        ((executeTokenSwap env.swapEnv env.swapAmount).2.success = false →
          ((executeAgent env agentId).1.get? 3).map
              (fun r => (r.status, r.errorMessage)) =
            some (.failed, (executeTokenSwap env.swapEnv env.swapAmount).2.error))) := by
  constructor
  · intro e he
    simp only [executeAgent, hag, hact, hbal, he]
    rfl
  · intro p hp
    constructor
    · simp only [executeAgent, hag, hact, hbal, hp]
      rfl
    · intro hsw
      simp only [executeAgent, hag, hact, hbal, hp, hsw]
      rfl

set_option maxHeartbeats 2000000 in
/-- Witness for C1 at the concrete environment. -/
theorem executeAgent_success_semantics_witness :
    (executeAgent cexOrchEnv "agent-1").2 =
      { success := true, taskIds := [0, 1, 2, 3], error := none } :=
  ((executeAgent_success_semantics cexOrchEnv "agent-1"
      { accountId := "vanta-agent.testnet",
        description := some "swap 0.5 near to a stable token",
        status := "active", decryptedPrivateKey := "ed25519:secret" }
      "10" rfl rfl rfl).2
    { selectedToken := "usdt.fakes.testnet", symbol := "USDT.e",
      reasoning := "Selected USDT.e as a stable token based on user instruction for stable tokens. This is a fallback selection due to AI analysis error.",
      confidence := 1 / 2, price := "0.999892" }
    (by rfl)).1

/-- Helper: when every poll attempt fails, the finality loop runs its
attempts counter to 30. -/
theorem pollExitF_all_fail (env : SwapEnv) (h : String)
    (hf : ∀ k, k < 30 → env.pollOk h k = false) :
    ∀ fuel a, a ≤ 30 → 30 ≤ a + fuel → pollExitF env h fuel a = 30 := by
  intro fuel
  induction fuel with
  | zero =>
    intro a h1 h2
    have : a = 30 := by omega
    simp [pollExitF, this]
  | succ fuel ih =>
    intro a h1 h2
    by_cases hlt : a < 30
    · simp only [pollExitF, if_pos hlt, hf a hlt, Bool.false_eq_true, if_false]
      exact ih (a + 1) (by omega) (by omega)
    · simp only [pollExitF, if_neg hlt]
      omega

/-- Helper: when some attempt within the bound observes success, the
finality loop exits below 30. -/
theorem pollExitF_lt_of_success (env : SwapEnv) (h : String) :
    ∀ fuel a k, a ≤ k → k < 30 → env.pollOk h k = true → 30 ≤ a + fuel →
      pollExitF env h fuel a < 30 := by
  intro fuel
  induction fuel with
  | zero => intro a k h1 h2 h3 h4; omega
  | succ fuel ih =>
    intro a k h1 h2 h3 h4
    have hlt : a < 30 := by omega
    by_cases hpa : env.pollOk h a = true
    · simp only [pollExitF, if_pos hlt, hpa, if_true]
      omega
    · simp only [pollExitF, if_pos hlt, hpa, Bool.false_eq_true, if_false]
      have hne : a ≠ k := fun hc => by rw [hc] at hpa; exact hpa h3
      exact ih (a + 1) k (by omega) h2 h3 (by omega)

/-- Helper: shape of the submission loop when the transaction at index
`i + d` is submitted, is non-final, and its finality poll exhausts all 30
attempts, while the `d` transactions before it submit and finalize. -/
theorem execLoopF_timeout (env : SwapEnv) (n : Nat) :
    ∀ d fuel i acc h,
      n < i + fuel →
      (∀ j, i ≤ j → j < i + d → ∃ hj, env.submit j = .ok hj ∧
          ∃ k, k < 30 ∧ env.pollOk hj k = true) →
      env.submit (i + d) = .ok h →
      (∀ k, k < 30 → env.pollOk h k = false) →
      i + d + 1 < n →
      execLoopF env n fuel i acc =
        (List.range' i (d + 1),
         .error ("Transaction " ++ h ++ " did not finalize in time")) := by
  intro d
  induction d with
  | zero =>
    intro fuel i acc h hfuel hpre hsub hpoll hlt
    cases fuel with
    | zero => omega
    | succ fuel =>
      have hin : i < n := by omega
      rw [Nat.add_zero] at hsub
      have h30 : pollExitF env h 30 0 ≥ 30 := by
        have := pollExitF_all_fail env h hpoll 30 0 (by omega) (by omega)
        omega
      simp only [execLoopF, if_pos hin, hsub, if_pos (show i < n - 1 by omega),
        pollExit, if_pos h30]
      rfl
  | succ d ih =>
    intro fuel i acc h hfuel hpre hsub hpoll hlt
    cases fuel with
    | zero => omega
    | succ fuel =>
      have hin : i < n := by omega
      obtain ⟨hi, hsubi, k, hk, hpk⟩ := hpre i (le_refl i) (by omega)
      have hlt30 : ¬ pollExitF env hi 30 0 ≥ 30 := by
        have := pollExitF_lt_of_success env hi 30 0 k (by omega) hk hpk (by omega)
        omega
      simp only [execLoopF, if_pos hin, hsubi, if_pos (show i < n - 1 by omega),
        pollExit, if_neg hlt30]
      have hrec := ih fuel (i + 1) (acc ++ [hi]) h (by omega)
        (fun j hj1 hj2 => hpre j (by omega) (by omega))
        (by rw [show i + 1 + d = i + (d + 1) by omega]; exact hsub)
        hpoll (by omega)
      rw [hrec]
      rfl

/-- C3: during the sequential submission phase of `executeTokenSwap`, if
the finality poll for a non-final transaction completes all 30 attempts
(1-second spacing in the source) without observing a terminal success
status, the whole swap aborts: exactly the transactions up to and
including the offending one were submitted (none after it), and
`executeTokenSwap` returns `success: false` with an error message
containing "did not finalize in time". -/
theorem executeTokenSwap_finality_timeout (env : SwapEnv)
    (amt w wh bal : String) (est : SwapEstimate) (n i : Nat) (h : String)
    (hw : env.parseNearAmount = some w) (hwr : env.wrap = .ok wh)
    (hb : env.wNearBalance = .ok bal) (hest : env.estimate = .ok est)
    (hbuild : env.buildTxs = .ok n)
    (hpre : ∀ j, j < i → ∃ hj, env.submit j = .ok hj ∧
        ∃ k, k < 30 ∧ env.pollOk hj k = true)
    (hsub : env.submit i = .ok h)
    (hpoll : ∀ k, k < 30 → env.pollOk h k = false)
    (hlt : i + 1 < n) :
    executeTokenSwap env amt =
      (List.range (i + 1),
       { success := false, transactionHash := none,
         error := some ("Transaction " ++ h ++ " did not finalize in time"),
         amountSwapped := none }) ∧
      ∃ pre post, "Transaction " ++ h ++ " did not finalize in time" =
        pre ++ "did not finalize in time" ++ post := by
  constructor
  · have hloop := execLoopF_timeout env n i (n + 1) 0 [wh] h (by omega)
      (fun j hj1 hj2 => hpre j (by omega))
      (by simpa using hsub) hpoll (by omega)
    simp only [executeTokenSwap, hw, hwr, hb, hest, hbuild, execLoopFrom, hloop,
      List.range_eq_range']
  · refine ⟨"Transaction " ++ h ++ " ", "", ?_⟩
    rw [String.append_empty]
    rw [String.append_assoc, String.append_assoc]
    rfl

/-- Concrete executor environment for the C3 witness: two built
transactions, the first submits but never finalizes. -/
def c3Env : SwapEnv where
  parseNearAmount := some "500000000000000000000000"
  wrap := .ok "wrapHash"
  wNearBalance := .ok "499000000000000000000000"
  estimate := .ok
    { inputToken := "wrap.testnet", outputToken := "usdt.fakes.testnet",
      inputAmount := "499000000000000000000000", expectedOutput := "100",
      minimumOutput := "99", priceImpact := "0.5", pool := ["3"] }
  buildTxs := .ok 2
  submit := fun _ => .ok "txA"
  pollOk := fun _ _ => false

/-- Witness for C3 at the concrete environment. -/
theorem executeTokenSwap_finality_timeout_witness :
    executeTokenSwap c3Env "0.5" =
      ([0], { success := false, transactionHash := none,
              error := some "Transaction txA did not finalize in time",
              amountSwapped := none }) := by
  have := (executeTokenSwap_finality_timeout c3Env "0.5"
    "500000000000000000000000" "wrapHash" "499000000000000000000000"
    { inputToken := "wrap.testnet", outputToken := "usdt.fakes.testnet",
      inputAmount := "499000000000000000000000", expectedOutput := "100",
      minimumOutput := "99", priceImpact := "0.5", pool := ["3"] }
    2 0 "txA" rfl rfl rfl rfl rfl
    (fun j hj => absurd hj (by omega))
    rfl (fun k _ => rfl) (by omega)).1
  simpa using this

/-- Helper: every digit character is a digit. -/
theorem digitChar_isDigit (d : Nat) : (digitChar d).isDigit = true := by
  unfold digitChar
  split <;> decide

/-- Helper: a digit character is none of the special characters of a
numeric literal. -/
theorem isDigit_ne {c : Char} (h : c.isDigit = true) :
    c ≠ 'e' ∧ c ≠ 'E' ∧ c ≠ '-' ∧ c ≠ '+' ∧ c ≠ '.' := by
  refine ⟨?_, ?_, ?_, ?_, ?_⟩ <;> (intro hc; rw [hc] at h; exact absurd h (by decide))

/-- Helper: the numeric value of the digit character of `d < 10` is `d`. -/
theorem digVal_digitChar (d : Nat) (h : d < 10) : digVal (digitChar d) = d := by
  interval_cases d <;> decide

/-- Helper: digit extraction is independent of the fuel, given enough. -/
theorem natDigsF_congr : ∀ f₁ f₂ n, n < f₁ → n < f₂ → natDigsF f₁ n = natDigsF f₂ n := by
  intro f₁
  induction f₁ with
  | zero => intro f₂ n h1; omega
  | succ f₁ ih =>
    intro f₂ n h1 h2
    cases f₂ with
    | zero => omega
    | succ f₂ =>
      simp only [natDigsF]
      by_cases hn : n < 10
      · simp [hn]
      · have hd : n / 10 < n := Nat.div_lt_self (by omega) (by omega)
        simp only [hn, if_false]
        rw [ih f₂ (n / 10) (by omega) (by omega)]

/-- Helper: unfolding equation of `natDigs`. -/
theorem natDigs_eq (n : Nat) :
    natDigs n = if n < 10 then [digitChar n]
      else natDigs (n / 10) ++ [digitChar (n % 10)] := by
  show natDigsF (n + 1) n = _
  by_cases hn : n < 10
  · simp [natDigsF, hn]
  · have hd : n / 10 < n := Nat.div_lt_self (by omega) (by omega)
    simp only [natDigsF, hn, if_false]
    rw [natDigsF_congr n (n / 10 + 1) (n / 10) (by omega) (by omega)]
    rfl

/-- Helper: the digit string of a natural number is nonempty and made of
digits. -/
theorem natDigs_digits (n : Nat) :
    natDigs n ≠ [] ∧ ∀ c ∈ natDigs n, c.isDigit = true := by
  induction n using Nat.strong_induction_on with
  | _ n ih =>
    rw [natDigs_eq]
    by_cases hn : n < 10
    · simp only [hn, if_true]
      exact ⟨by simp, by simp [digitChar_isDigit]⟩
    · have hd : n / 10 < n := Nat.div_lt_self (by omega) (by omega)
      simp only [hn, if_false]
      refine ⟨by simp, ?_⟩
      intro c hc
      rcases List.mem_append.mp hc with h | h
      · exact (ih (n / 10) hd).2 c h
      · simp only [List.mem_singleton] at h
        rw [h]; exact digitChar_isDigit _
/-- Helper: value of a digit list extended by one digit. -/
theorem digitsToNat_append (xs : List Char) (c : Char) :
    digitsToNat (xs ++ [c]) = 10 * digitsToNat xs + digVal c := by
  simp [digitsToNat, List.foldl_append]

/-- Helper: parsing back the digit string of `n` yields `n`. -/
theorem digitsToNat_natDigs (n : Nat) : digitsToNat (natDigs n) = n := by
  induction n using Nat.strong_induction_on with
  | _ n ih =>
    rw [natDigs_eq]
    by_cases hn : n < 10
    · simp only [hn, if_true]
      show 10 * 0 + digVal (digitChar n) = n
      rw [digVal_digitChar n hn]; omega
    · have hd : n / 10 < n := Nat.div_lt_self (by omega) (by omega)
      simp only [hn, if_false, digitsToNat_append, ih (n / 10) hd]
      rw [digVal_digitChar (n % 10) (by omega)]
      omega

/-- Helper: `splitSign` consumes no leading digit. -/
theorem splitSign_digit (c0 : Char) (cs : List Char) (h : c0.isDigit = true) :
    splitSign (c0 :: cs) = (false, c0 :: cs) := by
  obtain ⟨-, -, hm, hp, -⟩ := isDigit_ne h
  simp [splitSign, hm, hp]

/-- Helper: `splitSign` consumes a leading minus. -/
theorem splitSign_neg (cs : List Char) : splitSign ('-' :: cs) = (true, cs) := by
  simp [splitSign]

/-- Helper: `parseFloat` on a bare digit string yields its value, with a
positive sign. -/
theorem parseSciParts_digits (ds : List Char) (hne : ds ≠ [])
    (hd : ∀ c ∈ ds, c.isDigit = true) :
    parseSciParts ds = some (false, (digitsToNat ds : ℚ)) := by
  obtain ⟨c0, cs, rfl⟩ := List.exists_cons_of_ne_nil hne
  have h0 : c0.isDigit = true := hd c0 (by simp)
  have hss : splitSign (c0 :: cs) = (false, c0 :: cs) := splitSign_digit c0 cs h0
  have htw : (c0 :: cs).takeWhile (fun c => c.isDigit) = c0 :: cs :=
    List.takeWhile_eq_self_iff.mpr (by simpa using hd)
  have hdw : (c0 :: cs).dropWhile (fun c => c.isDigit) = [] :=
    List.dropWhile_eq_nil_iff.mpr (by simpa using hd)
  simp only [parseSciParts, hss, htw, hdw]
  norm_num [digitsToNat]
  exact fun h => absurd h (by decide)

/-- Helper: `parseFloat` on a minus sign followed by digits. -/
theorem parseSciParts_neg_digits (ds : List Char) (hne : ds ≠ [])
    (hd : ∀ c ∈ ds, c.isDigit = true) :
    parseSciParts ('-' :: ds) = some (true, (digitsToNat ds : ℚ)) := by
  obtain ⟨c0, cs, rfl⟩ := List.exists_cons_of_ne_nil hne
  have hss : splitSign ('-' :: c0 :: cs) = (true, c0 :: cs) := splitSign_neg _
  have htw : (c0 :: cs).takeWhile (fun c => c.isDigit) = c0 :: cs :=
    List.takeWhile_eq_self_iff.mpr (by simpa using hd)
  have hdw : (c0 :: cs).dropWhile (fun c => c.isDigit) = [] :=
    List.dropWhile_eq_nil_iff.mpr (by simpa using hd)
  simp only [parseSciParts, hss, htw, hdw]
  norm_num [digitsToNat]
  exact fun h => absurd h (by decide)

/-- Helper: parsing back a rendered signed decimal string yields exactly
its signed value. -/
theorem parseSciQ_signedDecString (neg : Bool) (m : ℕ) :
    parseSciQ (signedDecString neg m) =
      some (if neg then -(m : ℚ) else (m : ℚ)) := by
  obtain ⟨hne, hdig⟩ := natDigs_digits m
  cases neg with
  | false =>
    have hrepr : signedDecString false m = ⟨natDigs m⟩ := by simp [signedDecString]
    rw [hrepr]
    show parseSciChars (natDigs m) = _
    rw [parseSciChars, parseSciParts_digits _ hne hdig, digitsToNat_natDigs]
    rfl
  | true =>
    have hrepr : signedDecString true m = ⟨'-' :: natDigs m⟩ := by simp [signedDecString]
    rw [hrepr]
    show parseSciChars ('-' :: natDigs m) = _
    rw [parseSciChars, parseSciParts_neg_digits _ hne hdig, digitsToNat_natDigs]
    rfl

/-- Helper: rendered signed decimal strings contain no exponent marker. -/
theorem hasExpMarker_signedDecString (neg : Bool) (m : ℕ) :
    hasExpMarker (signedDecString neg m) = false := by
  obtain ⟨-, hdig⟩ := natDigs_digits m
  rw [hasExpMarker, List.any_eq_false]
  intro c hc
  have hc' : c = '-' ∨ c ∈ natDigs m := by
    cases neg with
    | true =>
      have hmem : c ∈ '-' :: natDigs m := hc
      simpa using hmem
    | false => exact Or.inr hc
  rcases hc' with rfl | hmem
  · decide
  · obtain ⟨h1, h2, -⟩ := isDigit_ne (hdig c hmem)
    simp [h1, h2]

/-- Helper: `ilog2` brackets a positive rational between consecutive
powers of two. -/
theorem ilog2_spec (q : ℚ) (hq : 0 < q) :
    (2 : ℚ) ^ ilog2 q ≤ q ∧ q < (2 : ℚ) ^ (ilog2 q + 1) := by
  have hnum : 0 < q.num := Rat.num_pos.mpr hq
  have hn0 : q.num.natAbs ≠ 0 := by omega
  have hd0 : q.den ≠ 0 := q.den_nz
  have hden : (0 : ℚ) < (q.den : ℚ) := by
    exact_mod_cast Nat.pos_of_ne_zero hd0
  have hna : 2 ^ Nat.log2 q.num.natAbs ≤ q.num.natAbs := Nat.log2_self_le hn0
  have hna2 : q.num.natAbs < 2 ^ (Nat.log2 q.num.natAbs + 1) :=
    (Nat.log2_lt hn0).mp (Nat.lt_succ_self _)
  have hdb : 2 ^ Nat.log2 q.den ≤ q.den := Nat.log2_self_le hd0
  have hdb2 : q.den < 2 ^ (Nat.log2 q.den + 1) :=
    (Nat.log2_lt hd0).mp (Nat.lt_succ_self _)
  have hqd : q * (q.den : ℚ) = (q.num.natAbs : ℚ) := by
    have h1 : ((q.num.natAbs : ℚ)) = ((q.num : ℚ)) := by
      rw [Int.cast_natAbs]
      exact_mod_cast abs_of_nonneg hnum.le
    rw [h1]
    exact Rat.mul_den_eq_num q
  have hup : q < (2 : ℚ) ^ ((Nat.log2 q.num.natAbs : ℤ) - (Nat.log2 q.den : ℤ) + 1) := by
    rw [show (Nat.log2 q.num.natAbs : ℤ) - (Nat.log2 q.den : ℤ) + 1
        = ((Nat.log2 q.num.natAbs + 1 : ℕ) : ℤ) - ((Nat.log2 q.den : ℕ) : ℤ) by push_cast; ring]
    rw [zpow_sub₀ two_ne_zero, zpow_natCast, zpow_natCast, lt_div_iff (by positivity)]
    calc q * (2 : ℚ) ^ Nat.log2 q.den ≤ q * (q.den : ℚ) := by
          refine mul_le_mul_of_nonneg_left ?_ hq.le
          exact_mod_cast hdb
      _ = (q.num.natAbs : ℚ) := hqd
      _ < (2 : ℚ) ^ (Nat.log2 q.num.natAbs + 1) := by exact_mod_cast hna2
  have hlo : (2 : ℚ) ^ ((Nat.log2 q.num.natAbs : ℤ) - (Nat.log2 q.den : ℤ) - 1) < q := by
    rw [show (Nat.log2 q.num.natAbs : ℤ) - (Nat.log2 q.den : ℤ) - 1
        = ((Nat.log2 q.num.natAbs : ℕ) : ℤ) - ((Nat.log2 q.den + 1 : ℕ) : ℤ) by push_cast; ring]
    rw [zpow_sub₀ two_ne_zero, zpow_natCast, zpow_natCast, div_lt_iff (by positivity)]
    calc (2 : ℚ) ^ Nat.log2 q.num.natAbs ≤ (q.num.natAbs : ℚ) := by exact_mod_cast hna
      _ = q * (q.den : ℚ) := hqd.symm
      _ < q * (2 : ℚ) ^ (Nat.log2 q.den + 1) := by
          refine mul_lt_mul_of_pos_left ?_ hq
          exact_mod_cast hdb2
  simp only [ilog2]
  split_ifs with h
  · exact ⟨h, hup⟩
  · push_neg at h
    refine ⟨hlo.le, ?_⟩
    rw [show (Nat.log2 q.num.natAbs : ℤ) - (Nat.log2 q.den : ℤ) - 1 + 1
        = (Nat.log2 q.num.natAbs : ℤ) - (Nat.log2 q.den : ℤ) by ring]
    exact h

/-- Helper: characterization of `ilog2` by a power-of-two bracketing. -/
theorem ilog2_eq (q : ℚ) (e : ℤ) (h1 : (2 : ℚ) ^ e ≤ q)
    (h2 : q < (2 : ℚ) ^ (e + 1)) : ilog2 q = e := by
  have hq : 0 < q := lt_of_lt_of_le (zpow_pos two_pos e) h1
  obtain ⟨l1, l2⟩ := ilog2_spec q hq
  have hlt1 : ilog2 q < e + 1 :=
    (zpow_lt_zpow_iff_right₀ one_lt_two).mp (lt_of_le_of_lt l1 h2)
  have hlt2 : e < ilog2 q + 1 :=
    (zpow_lt_zpow_iff_right₀ one_lt_two).mp (lt_of_le_of_lt h1 l2)
  omega

/-- Helper: `rneInt` is the identity on integers. -/
theorem rneInt_intCast (z : ℤ) : rneInt ((z : ℚ)) = z := by
  rw [rneInt, Int.floor_intCast]
  norm_num

/-- Helper: `rneInt` below the midpoint rounds down. -/
theorem rneInt_lt_half (q : ℚ) (f : ℤ) (h1 : (f : ℚ) ≤ q)
    (h2 : q < (f : ℚ) + 1 / 2) : rneInt q = f := by
  have hf : ⌊q⌋ = f := Int.floor_eq_iff.mpr ⟨h1, by linarith⟩
  rw [rneInt, hf, if_pos (by linarith)]

/-- Helper: `rneInt` above the midpoint rounds up. -/
theorem rneInt_half_lt (q : ℚ) (f : ℤ) (h1 : (f : ℚ) + 1 / 2 < q)
    (h2 : q < (f : ℚ) + 1) : rneInt q = f + 1 := by
  have hf : ⌊q⌋ = f := Int.floor_eq_iff.mpr ⟨by linarith, h2⟩
  rw [rneInt, hf, if_neg (by linarith), if_pos (by linarith)]

/-- Helper: `rneInt` at the midpoint with an even floor rounds to it. -/
theorem rneInt_half_even (q : ℚ) (f : ℤ) (hq : q = (f : ℚ) + 1 / 2)
    (he : f % 2 = 0) : rneInt q = f := by
  have hf : ⌊q⌋ = f := Int.floor_eq_iff.mpr ⟨by rw [hq]; linarith, by rw [hq]; linarith⟩
  rw [rneInt, hf, if_neg (by rw [hq]; linarith), if_neg (by rw [hq]; linarith), if_pos he]

/-- Helper: evaluation of `flRound` from a power-of-two bracketing. -/
theorem flRound_of (q : ℚ) (e : ℤ) (h1 : (2 : ℚ) ^ e ≤ q)
    (h2 : q < (2 : ℚ) ^ (e + 1)) :
    flRound q = (rneInt (q / (2 : ℚ) ^ (e - 52)) : ℚ) * (2 : ℚ) ^ (e - 52) := by
  have hq : 0 < q := lt_of_lt_of_le (zpow_pos two_pos e) h1
  rw [flRound, if_neg (not_le.mpr hq), ilog2_eq q e h1 h2]

/-- Helper: a positive integer of at most 53 bits times a power of two is
a binary64 value, fixed by `flRound`. -/
theorem flRound_repr (m : ℕ) (k : ℤ) (h1 : 0 < m) (h2 : m < 2 ^ 53) :
    flRound ((m : ℚ) * (2 : ℚ) ^ k) = (m : ℚ) * (2 : ℚ) ^ k := by
  have hm0 : m ≠ 0 := h1.ne'
  have ha1 : 2 ^ Nat.log2 m ≤ m := Nat.log2_self_le hm0
  have ha2 : m < 2 ^ (Nat.log2 m + 1) := (Nat.log2_lt hm0).mp (Nat.lt_succ_self _)
  have ha52 : Nat.log2 m ≤ 52 := by
    by_contra hcon
    push_neg at hcon
    have hle : 2 ^ 53 ≤ 2 ^ Nat.log2 m := Nat.pow_le_pow_right (by norm_num) hcon
    omega
  have hb1 : (2 : ℚ) ^ ((Nat.log2 m : ℤ) + k) ≤ (m : ℚ) * (2 : ℚ) ^ k := by
    rw [zpow_add₀ two_ne_zero]
    refine mul_le_mul_of_nonneg_right ?_ (zpow_pos two_pos k).le
    rw [zpow_natCast]
    exact_mod_cast ha1
  have hb2 : (m : ℚ) * (2 : ℚ) ^ k < (2 : ℚ) ^ ((Nat.log2 m : ℤ) + k + 1) := by
    rw [show (Nat.log2 m : ℤ) + k + 1 = ((Nat.log2 m + 1 : ℕ) : ℤ) + k by push_cast; ring,
      zpow_add₀ two_ne_zero]
    refine mul_lt_mul_of_pos_right ?_ (zpow_pos two_pos k)
    rw [zpow_natCast]
    exact_mod_cast ha2
  have hexp : ((52 - Nat.log2 m : ℕ) : ℤ) + ((Nat.log2 m : ℤ) + k - 52) = k := by omega
  have hshift : ((m : ℚ) * (2 : ℚ) ^ k) / (2 : ℚ) ^ ((Nat.log2 m : ℤ) + k - 52) =
      (((m * 2 ^ (52 - Nat.log2 m) : ℕ) : ℤ) : ℚ) := by
    rw [div_eq_iff (zpow_ne_zero _ two_ne_zero)]
    push_cast
    rw [← zpow_natCast (2 : ℚ) (52 - Nat.log2 m), mul_assoc, ← zpow_add₀ two_ne_zero, hexp]
  rw [flRound_of _ ((Nat.log2 m : ℤ) + k) hb1 hb2, hshift, rneInt_intCast]
  push_cast
  rw [← zpow_natCast (2 : ℚ) (52 - Nat.log2 m), mul_assoc, ← zpow_add₀ two_ne_zero, hexp]

/-- Helper: the formatter rounding is the identity on naturals. -/
theorem jsRoundMag_natCast (n : ℕ) : jsRoundMag ((n : ℚ)) = n := by
  have hfl : ⌊(1 : ℚ) / 2⌋ = 0 := Int.floor_eq_iff.mpr (by norm_num)
  rw [jsRoundMag, show ((n : ℚ) + 1 / 2) = ((n : ℤ) : ℚ) + 1 / 2 by push_cast; ring,
    Int.floor_int_add, hfl]
  simp

/-- C5 counterexample: the amount string "1.5e0" contains an exponent
marker and denotes 1.5, but the normalizer rewrites it to "2" — a
plain-digit string with a different numeric value, refuting the claim
that the rewrite always preserves the value. -/
theorem convertScientificToString_counterexample :
    convertScientificToString "1.5e0" = .ok "2" ∧
      parseSciQ "1.5e0" = some (3 / 2) ∧ parseSciQ "2" = some 2 ∧
      (3 / 2 : ℚ) ≠ 2 := by
  have hp : parseSciParts "1.5e0".toList = some (false, (3 / 2 : ℚ)) := by
    have hl : "1.5e0".toList = ['1', '.', '5', 'e', '0'] := rfl
    rw [hl]
    simp [parseSciParts, splitSign, digitsToNat, digVal]
    norm_num
  have hfl : flRound (3 / 2 : ℚ) = 3 / 2 := by
    have h32 : (3 / 2 : ℚ) = ((3 : ℕ) : ℚ) * (2 : ℚ) ^ (-1 : ℤ) := by
      push_cast
      norm_num
    rw [h32, flRound_repr 3 (-1) (by norm_num) (by norm_num)]
  have hnov : ¬ (2 : ℚ) ^ (1024 : ℕ) ≤ flRound (3 / 2 : ℚ) := by
    rw [hfl]
    norm_num
  have hjr : jsRoundMag (flRound (3 / 2 : ℚ)) = 2 := by
    have h2 : (3 / 2 : ℚ) + 1 / 2 = ((2 : ℤ) : ℚ) := by norm_num
    rw [hfl, jsRoundMag, h2, Int.floor_intCast]
    rfl
  refine ⟨?_, ?_, ?_, by norm_num⟩
  · rw [convertScientificToString,
      if_pos (show hasExpMarker "1.5e0" = true from rfl), hp]
    show (if (2 : ℚ) ^ (1024 : ℕ) ≤ flRound (3 / 2 : ℚ) then
        (Except.ok (if false then "-∞" else "∞") : Except String String)
      else Except.ok (signedDecString false (jsRoundMag (flRound (3 / 2 : ℚ))))) =
        Except.ok "2"
    rw [if_neg hnov, hjr]
    rfl
  · rw [parseSciQ, parseSciChars, hp]
    rfl
  · rw [parseSciQ, parseSciChars, show "2".toList = ['2'] from rfl,
      parseSciParts_digits ['2'] (by simp) (by decide),
      show digitsToNat ['2'] = 2 from rfl]
    simp

/-- C5 (amended): a string without an exponent marker is returned
unchanged and the normalizer is idempotent; a string with an exponent
marker whose `parseFloat` is not NaN — sign `neg`, exact decimal
magnitude `mag` — is rewritten to the formatter's rendering of the
nearest binary64 double `flRound mag` of the magnitude: "∞" or "-∞" when
that rounding overflows the double range at `2 ^ 1024`, and otherwise
the plain digits (no exponent marker) of the double rounded to an
integer (ties away from zero) with the sign, a string that parses back
to exactly that signed integer.  The numeric value is preserved exactly
when the magnitude is a 53-bit integer scaled by a power of two below
the overflow range — not on the whole integer domain: the double
rounding already changes the digits of "9007199254740993e0" (2^53 + 1),
which the program emits as "9007199254740992". -/
theorem convertScientificToString_spec (x y : String) (neg : Bool) (mag : ℚ) :
    (hasExpMarker x = false → convertScientificToString x = .ok x) ∧
      (convertScientificToString x = .ok y → convertScientificToString y = .ok y) ∧
      (hasExpMarker x = true → parseSciParts x.toList = some (neg, mag) →
        (¬ (2 : ℚ) ^ (1024 : ℕ) ≤ flRound mag →
          convertScientificToString x =
            .ok (signedDecString neg (jsRoundMag (flRound mag))) ∧
          hasExpMarker (signedDecString neg (jsRoundMag (flRound mag))) = false ∧
          parseSciQ (signedDecString neg (jsRoundMag (flRound mag))) =
            some (if neg then -(jsRoundMag (flRound mag) : ℚ)
              else (jsRoundMag (flRound mag) : ℚ))) ∧
        ((2 : ℚ) ^ (1024 : ℕ) ≤ flRound mag →
          convertScientificToString x = .ok (if neg then "-∞" else "∞")) ∧
        (∀ m k : ℕ, mag = (m : ℚ) * (2 : ℚ) ^ k → 0 < m → m < 2 ^ 53 → k ≤ 970 →
          convertScientificToString x = .ok (signedDecString neg (m * 2 ^ k)) ∧
          parseSciQ (signedDecString neg (m * 2 ^ k)) =
            some (if neg then -mag else mag))) ∧
      convertScientificToString "9007199254740993e0" = .ok "9007199254740992" := by
  refine ⟨?_, ?_, ?_, ?_⟩
  · intro hmark
    simp [convertScientificToString, hmark]
  · intro hok
    by_cases hmark : hasExpMarker x
    · rw [convertScientificToString, if_pos hmark] at hok
      cases hp : parseSciParts x.toList with
      | none => rw [hp] at hok; exact absurd hok (by simp)
      | some sm =>
        rw [hp] at hok
        have hok' : (if (2 : ℚ) ^ (1024 : ℕ) ≤ flRound sm.2 then
            (Except.ok (if sm.1 then "-∞" else "∞") : Except String String)
          else Except.ok (signedDecString sm.1 (jsRoundMag (flRound sm.2)))) =
            Except.ok y := hok
        by_cases hov : (2 : ℚ) ^ (1024 : ℕ) ≤ flRound sm.2
        · rw [if_pos hov] at hok'
          have hy : (if sm.1 then "-∞" else "∞") = y := by simpa using hok'
          have hmy : hasExpMarker y = false := by
            rw [← hy]
            cases sm.1 <;> rfl
          rw [convertScientificToString, if_neg (by simp [hmy])]
        · rw [if_neg hov] at hok'
          have hy : signedDecString sm.1 (jsRoundMag (flRound sm.2)) = y := by
            simpa using hok'
          rw [convertScientificToString,
            if_neg (by rw [← hy, hasExpMarker_signedDecString]; simp)]
    · rw [convertScientificToString, if_neg hmark] at hok
      have hy : x = y := by simpa using hok
      rw [← hy, convertScientificToString, if_neg hmark]
  · intro hmark hparse
    have hout : ¬ (2 : ℚ) ^ (1024 : ℕ) ≤ flRound mag →
        convertScientificToString x =
          .ok (signedDecString neg (jsRoundMag (flRound mag))) := by
      intro hov
      rw [convertScientificToString, if_pos hmark, hparse]
      show (if (2 : ℚ) ^ (1024 : ℕ) ≤ flRound mag then
          (Except.ok (if neg then "-∞" else "∞") : Except String String)
        else Except.ok (signedDecString neg (jsRoundMag (flRound mag)))) =
          Except.ok (signedDecString neg (jsRoundMag (flRound mag)))
      rw [if_neg hov]
    refine ⟨fun hov => ⟨hout hov, hasExpMarker_signedDecString _ _,
      parseSciQ_signedDecString _ _⟩, ?_, ?_⟩
    · intro hov
      rw [convertScientificToString, if_pos hmark, hparse]
      show (if (2 : ℚ) ^ (1024 : ℕ) ≤ flRound mag then
          (Except.ok (if neg then "-∞" else "∞") : Except String String)
        else Except.ok (signedDecString neg (jsRoundMag (flRound mag)))) =
          Except.ok (if neg then "-∞" else "∞")
      rw [if_pos hov]
    · intro m k hmag hm1 hm2 hk
      have hcast : mag = ((m * 2 ^ k : ℕ) : ℚ) := by
        rw [hmag]
        push_cast
        ring
      have hfl : flRound mag = mag := by
        rw [hmag, ← zpow_natCast (2 : ℚ) k]
        exact flRound_repr m (k : ℤ) hm1 hm2
      have hlt : m * 2 ^ k < 2 ^ 1024 := by
        have hs1 : m * 2 ^ k < 2 ^ 53 * 2 ^ k :=
          Nat.mul_lt_mul_of_lt_of_le hm2 (Nat.le_refl _) (Nat.pos_pow_of_pos k (by norm_num))
        have hs2 : 2 ^ 53 * 2 ^ k ≤ 2 ^ 53 * 2 ^ 970 :=
          Nat.mul_le_mul_left _ (Nat.pow_le_pow_right (by norm_num) hk)
        calc m * 2 ^ k < 2 ^ 53 * 2 ^ k := hs1
          _ ≤ 2 ^ 53 * 2 ^ 970 := hs2
          _ < 2 ^ 1024 := by norm_num
      have hnov : ¬ (2 : ℚ) ^ (1024 : ℕ) ≤ flRound mag := by
        rw [hfl, hcast, not_le]
        calc ((m * 2 ^ k : ℕ) : ℚ) < ((2 ^ 1024 : ℕ) : ℚ) := by exact_mod_cast hlt
          _ = (2 : ℚ) ^ (1024 : ℕ) := by push_cast; ring
      refine ⟨?_, ?_⟩
      · rw [hout hnov, hfl, hcast, jsRoundMag_natCast]
      · rw [parseSciQ_signedDecString, hcast]
  · have hp : parseSciParts "9007199254740993e0".toList =
        some (false, (9007199254740993 : ℚ)) := by
      have hl : "9007199254740993e0".toList =
        ['9', '0', '0', '7', '1', '9', '9', '2', '5', '4', '7', '4', '0', '9', '9', '3',
          'e', '0'] := rfl
      rw [hl]
      simp [parseSciParts, splitSign, digitsToNat, digVal]
    have hfl : flRound (9007199254740993 : ℚ) = 9007199254740992 := by
      have hb1 : (2 : ℚ) ^ (53 : ℤ) ≤ (9007199254740993 : ℚ) := by norm_num
      have hb2 : (9007199254740993 : ℚ) < (2 : ℚ) ^ ((53 : ℤ) + 1) := by norm_num
      rw [flRound_of _ 53 hb1 hb2]
      have hdiv : (9007199254740993 : ℚ) / (2 : ℚ) ^ ((53 : ℤ) - 52) =
          ((4503599627370496 : ℤ) : ℚ) + 1 / 2 := by
        norm_num
      rw [hdiv, rneInt_half_even _ 4503599627370496 rfl (by decide)]
      norm_num
    have hnov : ¬ (2 : ℚ) ^ (1024 : ℕ) ≤ flRound (9007199254740993 : ℚ) := by
      rw [hfl]
      norm_num
    have hjr : jsRoundMag (flRound (9007199254740993 : ℚ)) = 9007199254740992 := by
      rw [hfl, show (9007199254740992 : ℚ) = ((9007199254740992 : ℕ) : ℚ) by norm_num,
        jsRoundMag_natCast]
    rw [convertScientificToString,
      if_pos (show hasExpMarker "9007199254740993e0" = true from rfl), hp]
    show (if (2 : ℚ) ^ (1024 : ℕ) ≤ flRound (9007199254740993 : ℚ) then
        (Except.ok (if false then "-∞" else "∞") : Except String String)
      else Except.ok (signedDecString false (jsRoundMag (flRound (9007199254740993 : ℚ))))) =
        Except.ok "9007199254740992"
    rw [if_neg hnov, hjr]
    rfl

/-- Witness for C5: the realistic integer amount "1e21" (one token with
21 decimals) is exactly double-representable and is rewritten to the
equivalent plain digit string. -/
theorem convertScientificToString_spec_witness :
    convertScientificToString "1e21" = .ok "1000000000000000000000" ∧
      parseSciQ "1000000000000000000000" = some 1000000000000000000000 := by
  have hq : parseSciParts "1e21".toList = some (false, (1000000000000000000000 : ℚ)) := by
    have hl : "1e21".toList = ['1', 'e', '2', '1'] := rfl
    rw [hl]
    simp [parseSciParts, splitSign, digitsToNat, digVal]
    norm_num
  have h := ((convertScientificToString_spec "1e21" "" false
      1000000000000000000000).2.2.1 rfl hq).2.2 476837158203125 21
    (by norm_num) (by norm_num) (by norm_num) (by norm_num)
  have hs : signedDecString false (476837158203125 * 2 ^ 21) =
      "1000000000000000000000" := by decide
  have hv : (if false then -(1000000000000000000000 : ℚ)
      else (1000000000000000000000 : ℚ)) = 1000000000000000000000 := rfl
  rw [← hs, ← hv]
  exact ⟨h.1, h.2⟩

/-- Helper: splitting of the scanned window at one batch boundary. -/
theorem scan_window_split (reg : List Pool) (cap i : Nat) (hi : i + 100 ≤ cap) :
    (reg.take cap).drop i = (reg.drop i).take 100 ++ (reg.take cap).drop (i + 100) := by
  rw [List.drop_take, List.drop_take,
    show cap - i = 100 + (cap - (i + 100)) by omega,
    List.take_add, List.drop_drop]

/-- Helper: on the honest chain, the batch loop computes the first match
within the window `[i, min numPools cap)` of the registry. -/
theorem scanPoolsF_honest (reg : List Pool) (m : Pool → Bool) (cap : Nat)
    (hcap : 100 ∣ cap) :
    ∀ fuel i, cap < i + 100 * fuel → 100 ∣ i →
      scanPoolsF (honestPoolEnv reg) m cap reg.length fuel i =
        .ok ((((reg.take cap).drop i).findIdx? m).map (· + i)) := by
  intro fuel
  induction fuel with
  | zero =>
    intro i hfuel hdvd
    rw [List.drop_eq_nil_of_le (by simp [List.length_take]; omega)]
    simp [scanPoolsF]
  | succ fuel ih =>
    intro i hfuel hdvd
    by_cases hi : i < min reg.length cap
    · have hico : i + 100 ≤ cap := by
        obtain ⟨a, rfl⟩ := hdvd
        obtain ⟨b, rfl⟩ := hcap
        have : a < b := by omega
        omega
      have hsplit := scan_window_split reg cap i hico
      have hgp : (honestPoolEnv reg).getPools i = .ok ((reg.drop i).take 100) := rfl
      cases hb : ((reg.drop i).take 100).findIdx? m with
      | some j =>
        simp only [scanPoolsF, if_pos hi, hgp, hb]
        rw [hsplit, List.findIdx?_append, hb]
        simp [Nat.add_comm]
      | none =>
        simp only [scanPoolsF, if_pos hi, hgp, hb]
        rw [ih (i + 100) (by omega) (by omega), hsplit, List.findIdx?_append, hb]
        by_cases hlen : reg.length ≤ i + 100
        · have hnil : (reg.take cap).drop (i + 100) = [] :=
            List.drop_eq_nil_of_le (by simp [List.length_take]; omega)
          rw [hnil]
          simp
        · have hbl : ((reg.drop i).take 100).length = 100 := by
            simp [List.length_take, List.length_drop]
            omega
          rw [hbl]
          cases ((reg.take cap).drop (i + 100)).findIdx? m with
          | none => simp
          | some j' => simp [Option.map_some]; omega
    · rw [List.drop_eq_nil_of_le (by simp [List.length_take]; omega)]
      simp [scanPoolsF, hi]

/-- Helper: a chain failing at page `k` makes the batch loop throw,
provided no earlier batch matched. -/
theorem scanPoolsF_failAt (reg : List Pool) (m : Pool → Bool) (cap k : Nat)
    (e : String) (hk : 100 ∣ k) (hcap : 100 ∣ cap) (hklt : k < min reg.length cap) :
    ∀ fuel i, cap < i + 100 * fuel → 100 ∣ i → i ≤ k →
      ((reg.take k).drop i).findIdx? m = none →
      scanPoolsF (failAtPoolEnv reg k e) m cap reg.length fuel i = .error e := by
  intro fuel
  induction fuel with
  | zero => intro i hfuel hdvd hik hnone; omega
  | succ fuel ih =>
    intro i hfuel hdvd hik hnone
    have hi : i < min reg.length cap := by omega
    by_cases hika : i = k
    · have hgp : (failAtPoolEnv reg k e).getPools i = .error e := by
        simp [failAtPoolEnv, hika]
      simp [scanPoolsF, if_pos hi, hgp]
      omega
    · have hgp : (failAtPoolEnv reg k e).getPools i = .ok ((reg.drop i).take 100) := by
        simp [failAtPoolEnv, hika]
      have hiklt : i < k := by omega
      have hico : i + 100 ≤ k := by
        obtain ⟨a, rfl⟩ := hdvd
        obtain ⟨b, rfl⟩ := hk
        have : a < b := by omega
        omega
      have hsplit := scan_window_split reg k i hico
      rw [hsplit, List.findIdx?_append] at hnone
      have hbatch : ((reg.drop i).take 100).findIdx? m = none := by
        cases hb : ((reg.drop i).take 100).findIdx? m with
        | none => rfl
        | some j => rw [hb] at hnone; simp at hnone
      have hrest : ((reg.take k).drop (i + 100)).findIdx? m = none := by
        rw [hbatch] at hnone
        cases hr : ((reg.take k).drop (i + 100)).findIdx? m with
        | none => rfl
        | some j => rw [hr] at hnone; simp at hnone
      simp only [scanPoolsF, if_pos hi, hgp, hbatch]
      exact ih (i + 100) (by omega) (by omega) hico hrest

/-- C7: on an honest chain, `findPool` equals the first match (lowest pool
index) among the first `min(registryLength, 500)` pools — scanned in
batches of 100 from index 0 — for the predicate "the pool's token set
contains both requested tokens in either role"; `hasLiquidityPool` is the
analogous check bounded at 200 pools; and both fail closed: a failing
`get_number_of_pools` call, or a failing `get_pools` page call reached
during the scan, yields not-found (`none` / `false`). -/
theorem findPool_scan_spec (reg : List Pool) (tin tout tok : String) :
    (findPool (honestPoolEnv reg) tin tout =
        (reg.take 500).findIdx? (poolMatches tin tout)) ∧
      (hasLiquidityPool (honestPoolEnv reg) tok =
        (reg.take 200).any (liqMatches tok)) ∧
      (∀ pid, findPool (honestPoolEnv reg) tin tout = some pid →
        pid < 500 ∧ ∃ h : pid < reg.length,
          poolMatches tin tout (reg.get ⟨pid, h⟩) = true ∧
          ∀ q (hq : q < reg.length), q < pid →
            poolMatches tin tout (reg.get ⟨q, hq⟩) = false) ∧
      (findPool (honestPoolEnv reg) tin tout = none →
        ∀ q (hq : q < reg.length), q < 500 →
          poolMatches tin tout (reg.get ⟨q, hq⟩) = false) ∧
      (∀ e, findPool { numPools := .error e, getPools := (honestPoolEnv reg).getPools }
          tin tout = none) ∧
      (∀ e, hasLiquidityPool
          { numPools := .error e, getPools := (honestPoolEnv reg).getPools } tok = false) ∧
      (∀ k e, 100 ∣ k → k < min reg.length 500 →
        (reg.take k).findIdx? (poolMatches tin tout) = none →
        findPool (failAtPoolEnv reg k e) tin tout = none) ∧
      (∀ k e, 100 ∣ k → k < min reg.length 200 →
        (reg.take k).findIdx? (liqMatches tok) = none →
        hasLiquidityPool (failAtPoolEnv reg k e) tok = false) := by
  have hfp : findPool (honestPoolEnv reg) tin tout =
      (reg.take 500).findIdx? (poolMatches tin tout) := by
    show (match scanPools (honestPoolEnv reg) (poolMatches tin tout) 500 reg.length 0 with
      | .error _ => none | .ok r => r) = _
    rw [scanPools, scanPoolsF_honest reg _ 500 (by norm_num) 501 0 (by norm_num) (by norm_num)]
    simp
  have hlq : hasLiquidityPool (honestPoolEnv reg) tok =
      (reg.take 200).any (liqMatches tok) := by
    show (match scanPools (honestPoolEnv reg) (liqMatches tok) 200 reg.length 0 with
      | .error _ => false | .ok r => r.isSome) = _
    rw [scanPools, scanPoolsF_honest reg _ 200 (by norm_num) 201 0 (by norm_num) (by norm_num)]
    show (Option.map (· + 0) (((reg.take 200).drop 0).findIdx? (liqMatches tok))).isSome = _
    rw [List.drop_zero, ← List.findIdx?_isSome]
    cases (reg.take 200).findIdx? (liqMatches tok) <;> rfl
  refine ⟨hfp, hlq, ?_, ?_, fun e => rfl, fun e => rfl, ?_, ?_⟩
  · intro pid hpid
    rw [hfp] at hpid
    obtain ⟨hlt, hmatch, hleast⟩ := List.findIdx?_eq_some_iff_getElem.mp hpid
    have hlt500 : pid < 500 := by
      have := hlt
      simp [List.length_take] at this
      omega
    have hltlen : pid < reg.length := by
      have := hlt
      simp [List.length_take] at this
      omega
    refine ⟨hlt500, hltlen, ?_, ?_⟩
    · have := hmatch
      simpa [List.get_eq_getElem, List.getElem_take] using this
    · intro q hq hqpid
      have := hleast q hqpid
      simpa [List.get_eq_getElem, List.getElem_take] using this
  · intro hnone q hq hq500
    rw [hfp] at hnone
    have := List.findIdx?_eq_none_iff.mp hnone (reg.get ⟨q, hq⟩) ?_
    · simpa using this
    · have : reg.get ⟨q, hq⟩ = (reg.take 500).get ⟨q, by simp [List.length_take]; omega⟩ := by
        simp [List.get_eq_getElem, List.getElem_take]
      rw [this]
      exact List.get_mem _ _ _
  · intro k e hk hklt hnone
    show (match scanPools (failAtPoolEnv reg k e) (poolMatches tin tout) 500 reg.length 0 with
      | .error _ => none | .ok r => r) = _
    rw [scanPools, scanPoolsF_failAt reg _ 500 k e hk (by norm_num) hklt 501 0
      (by norm_num) (by norm_num) (by omega) (by simpa using hnone)]
  · intro k e hk hklt hnone
    show (match scanPools (failAtPoolEnv reg k e) (liqMatches tok) 200 reg.length 0 with
      | .error _ => false | .ok r => r.isSome) = _
    rw [scanPools, scanPoolsF_failAt reg _ 200 k e hk (by norm_num) hklt 201 0
      (by norm_num) (by norm_num) (by omega) (by simpa using hnone)]

/-- Witness for C7: an RPC failure on the first page makes `findPool`
return not-found even though the registry holds a matching pool. -/
theorem findPool_scan_spec_witness :
    findPool
        (failAtPoolEnv [{ token_account_ids := ["wrap.testnet", "usdt.fakes.testnet"] }]
          0 "rpc down")
        "wrap.testnet" "usdt.fakes.testnet" = none :=
  (findPool_scan_spec
      [{ token_account_ids := ["wrap.testnet", "usdt.fakes.testnet"] }]
      "wrap.testnet" "usdt.fakes.testnet" "x").2.2.2.2.2.2.1
    0 "rpc down" (by decide) (by decide) (by decide)

/-- Helper: specification of the positive-price filter. -/
theorem pricePos_iff (pf : String → Option ℚ) (t : TokenInfo) :
    pricePos pf t = true ↔ ∃ q, pf t.price = some q ∧ 0 < q := by
  rw [pricePos]
  cases h : pf t.price <;> simp [h]

/-- Helper: the price sort yields a list pairwise descending in the
parsed price. -/
theorem sortByPriceDesc_pairwise (pf : String → Option ℚ) (l : List TokenInfo) :
    (sortByPriceDesc pf l).Pairwise (fun a b => priceKey pf b ≤ priceKey pf a) := by
  have hs := @List.sorted_mergeSort TokenInfo
    (fun a b : TokenInfo => decide (priceKey pf b ≤ priceKey pf a))
    (fun a b c hab hbc => by
      simp only [decide_eq_true_eq] at hab hbc ⊢
      exact le_trans hbc hab)
    (fun a b => by
      simp only [Bool.or_eq_true, decide_eq_true_eq]
      exact le_total (priceKey pf b) (priceKey pf a))
    l
  exact hs.imp (fun h => of_decide_eq_true h)

/-- Helper: the price sort is a permutation (same members). -/
theorem sortByPriceDesc_mem (pf : String → Option ℚ) (l : List TokenInfo)
    (t : TokenInfo) : t ∈ sortByPriceDesc pf l ↔ t ∈ l := by
  rw [sortByPriceDesc]
  exact List.mem_mergeSort

/-- Helper: the liquidity-collection loop selects a sublist of its
input. -/
theorem collectLiquid_sublist (hl : String → Bool) :
    ∀ (l : List TokenInfo) (cnt : Nat), List.Sublist (collectLiquid hl l cnt) l := by
  intro l
  induction l with
  | nil => intro cnt; simp [collectLiquid]
  | cons t ts ih =>
    intro cnt
    rw [collectLiquid]
    by_cases hw : t.token_account_id = WRAP_NEAR_TOKEN
    · simp only [hw, if_true]
      exact (ih cnt).cons t
    · simp only [hw, if_false]
      by_cases hliq : hl t.token_account_id
      · simp only [hliq, if_true]
        by_cases hcnt : cnt + 1 ≥ 15
        · simp only [hcnt, if_true]
          exact (List.nil_sublist ts).cons₂ t
        · simp only [hcnt, if_false]
          exact (ih (cnt + 1)).cons₂ t
      · simp only [hliq, Bool.false_eq_true, if_false]
        exact (ih cnt).cons t

/-- Helper: the liquidity-collection loop stops at 15 entries. -/
theorem collectLiquid_length (hl : String → Bool) :
    ∀ (l : List TokenInfo) (cnt : Nat), cnt < 15 →
      (collectLiquid hl l cnt).length + cnt ≤ 15 := by
  intro l
  induction l with
  | nil => intro cnt h; simp [collectLiquid]; omega
  | cons t ts ih =>
    intro cnt h
    rw [collectLiquid]
    by_cases hw : t.token_account_id = WRAP_NEAR_TOKEN
    · simp only [hw, if_true]
      exact ih cnt h
    · simp only [hw, if_false]
      by_cases hliq : hl t.token_account_id
      · simp only [hliq, if_true]
        by_cases hcnt : cnt + 1 ≥ 15
        · simp only [hcnt, if_true, List.length_singleton]
          omega
        · simp only [hcnt, if_false, List.length_cons]
          have := ih (cnt + 1) (by omega)
          omega
      · simp only [hliq, Bool.false_eq_true, if_false]
        exact ih cnt h

/-- Helper: shape of `loadFallbackTokens` — at most 15 entries, sorted by
descending parsed price, all prices parsing positive. -/
theorem loadFallbackTokens_shape
    (fallbackData : Except String (List (String × FallbackInfo)))
    (pf : String → Option ℚ)
    (h1 : pf "101700" = some 101700)
    (h2 : pf "0.999892" = some (999892 / 1000000)) :
    (loadFallbackTokens fallbackData pf).length ≤ 15 ∧
      (loadFallbackTokens fallbackData pf).Pairwise
        (fun a b => priceKey pf b ≤ priceKey pf a) ∧
      ∀ t ∈ loadFallbackTokens fallbackData pf, ∃ q, pf t.price = some q ∧ 0 < q := by
  cases fallbackData with
  | error e =>
    have hb : loadFallbackTokens (.error e) pf = builtinTokens := rfl
    rw [hb]
    refine ⟨by decide, ?_, ?_⟩
    · simp [builtinTokens, priceKey, h1, h2]
      norm_num
    · intro t ht
      fin_cases ht
      · exact ⟨101700, h1, by norm_num⟩
      · exact ⟨999892 / 1000000, h2, by norm_num⟩
      · exact ⟨999892 / 1000000, h2, by norm_num⟩
  | ok rows =>
    rw [loadFallbackTokens]
    refine ⟨?_, ?_, ?_⟩
    · simp [List.length_take]
    · exact (sortByPriceDesc_pairwise pf _).sublist (List.take_sublist _ _)
    · intro t ht
      have hmem : t ∈ sortByPriceDesc pf ((rows.map mkFallbackToken).filter (pricePos pf)) :=
        (List.take_sublist _ _).mem ht
      have := (List.mem_filter.mp ((sortByPriceDesc_mem pf _ t).mp hmem)).2
      exact (pricePos_iff pf t).mp this

/-- C8: every list returned by `fetchAvailableTokens` — live indexer path,
static fallback path, or built-in last resort — has at most 15 entries,
is pairwise sorted by descending parsed price, and contains no entry
whose price fails to parse to a positive number (`pf` is the parseFloat
interpretation of price strings; the two hypotheses pin its values on the
built-in list's literals). -/
theorem fetchAvailableTokens_shape
    (indexer : Except String (List (String × RawInfo)))
    (hasLiq : String → Bool)
    (fallbackData : Except String (List (String × FallbackInfo)))
    (pf : String → Option ℚ)
    (h1 : pf "101700" = some 101700)
    (h2 : pf "0.999892" = some (999892 / 1000000)) :
    (fetchAvailableTokens indexer hasLiq fallbackData pf).length ≤ 15 ∧
      (fetchAvailableTokens indexer hasLiq fallbackData pf).Pairwise
        (fun a b => priceKey pf b ≤ priceKey pf a) ∧
      ∀ t ∈ fetchAvailableTokens indexer hasLiq fallbackData pf,
        ∃ q, pf t.price = some q ∧ 0 < q := by
  have hfb := loadFallbackTokens_shape fallbackData pf h1 h2
  cases indexer with
  | error e => exact hfb
  | ok rows =>
    rw [fetchAvailableTokens]
    by_cases hempty :
        (collectLiquid hasLiq
          ((sortByPriceDesc pf ((rows.map mkToken).filter (pricePos pf))).take 30) 0).isEmpty
    · simp only [hempty, if_true]
      exact hfb
    · simp only [hempty, Bool.false_eq_true, if_false]
      refine ⟨?_, ?_, ?_⟩
      · have := collectLiquid_length hasLiq
          ((sortByPriceDesc pf ((rows.map mkToken).filter (pricePos pf))).take 30) 0
          (by omega)
        omega
      · exact ((sortByPriceDesc_pairwise pf _).sublist (List.take_sublist _ _)).sublist
          (collectLiquid_sublist hasLiq _ 0)
      · intro t ht
        have hmem : t ∈ sortByPriceDesc pf ((rows.map mkToken).filter (pricePos pf)) :=
          (List.take_sublist _ _).mem ((collectLiquid_sublist hasLiq _ 0).mem ht)
        have := (List.mem_filter.mp ((sortByPriceDesc_mem pf _ t).mp hmem)).2
        exact (pricePos_iff pf t).mp this

/-- Concrete parseFloat interpretation for the catalog witnesses. -/
def pfWitness : String → Option ℚ :=
  fun s => if s = "101700" then some 101700
    else if s = "0.999892" then some (999892 / 1000000) else none

/-- Witness for C8 on the built-in last-resort path. -/
theorem fetchAvailableTokens_shape_witness :
    (fetchAvailableTokens (.error "indexer down") (fun _ => false)
        (.error "import failed") pfWitness).length ≤ 15 :=
  (fetchAvailableTokens_shape (.error "indexer down") (fun _ => false)
      (.error "import failed") pfWitness rfl rfl).1

/-- C10: `fetchAvailableTokens` never returns an empty list, provided the
bundled static dataset (modelled from the spec, see
`loadFallbackTokens`) either fails to load or contains at least one entry
passing the positive-price filter: a live-path collection that comes up
empty falls back to the static dataset, a failed static load falls back
to the non-empty built-in list — so `predictBestToken`'s keyword fallback,
which dereferences the first catalog entry, cannot throw on the catalog. -/
theorem fetchAvailableTokens_nonempty
    (indexer : Except String (List (String × RawInfo)))
    (hasLiq : String → Bool)
    (fallbackData : Except String (List (String × FallbackInfo)))
    (pf : String → Option ℚ)
    (hfb : ∀ rows, fallbackData = .ok rows →
      ∃ row ∈ rows, pricePos pf (mkFallbackToken row) = true) :
    fetchAvailableTokens indexer hasLiq fallbackData pf ≠ [] ∧
      ∀ goal, (predictFallback
        (fetchAvailableTokens indexer hasLiq fallbackData pf) goal).isOk = true := by
  have hfbne : loadFallbackTokens fallbackData pf ≠ [] := by
    cases fallbackData with
    | error e => simp [loadFallbackTokens, builtinTokens]
    | ok rows =>
      obtain ⟨row, hrow, hpos⟩ := hfb rows rfl
      rw [loadFallbackTokens]
      intro hcontra
      have hlen := congrArg List.length hcontra
      rw [List.length_take, List.length_nil] at hlen
      have hmem : mkFallbackToken row ∈
          sortByPriceDesc pf ((rows.map mkFallbackToken).filter (pricePos pf)) := by
        rw [sortByPriceDesc_mem]
        exact List.mem_filter.mpr ⟨List.mem_map_of_mem _ hrow, hpos⟩
      have : 0 < (sortByPriceDesc pf
          ((rows.map mkFallbackToken).filter (pricePos pf))).length :=
        List.length_pos_of_mem hmem
      omega
  have hne : fetchAvailableTokens indexer hasLiq fallbackData pf ≠ [] := by
    cases indexer with
    | error e => exact hfbne
    | ok rows =>
      rw [fetchAvailableTokens]
      by_cases hempty :
          (collectLiquid hasLiq
            ((sortByPriceDesc pf ((rows.map mkToken).filter (pricePos pf))).take 30) 0).isEmpty
      · simp only [hempty, if_true]
        exact hfbne
      · simp only [hempty, Bool.false_eq_true, if_false]
        intro hcontra
        rw [hcontra] at hempty
        simp at hempty
  refine ⟨hne, ?_⟩
  intro goal
  cases hl : fetchAvailableTokens indexer hasLiq fallbackData pf with
  | nil => exact absurd hl hne
  | cons t ts =>
    rw [predictFallback]
    split <;> rfl

/-- Witness for C10 at a failing static import (built-in path). -/
theorem fetchAvailableTokens_nonempty_witness :
    fetchAvailableTokens (.error "indexer down") (fun _ => false)
      (.error "import failed") pfWitness ≠ [] :=
  (fetchAvailableTokens_nonempty (.error "indexer down") (fun _ => false)
      (.error "import failed") pfWitness
      (fun rows hrows => absurd hrows (by simp))).1

end Vanta
